import Mathlib

/-!
Verification of the puck-bridge runtime: a shallow embedding of the
message-protocol decoder (message_parser.py), the event dispatch system
(event_system.py), the game-state store (game_state.py), the derived
query helpers (utilities.py) and the command send path (server.py),
with theorems checking the specification's claims against the embedding.

JSON values are modelled by the inductive `Json`; numbers are rationals,
which unifies Python `int`/`float` equality such as `1 == 1.0`.
Python operations that can raise (`in` on a non-container, attribute
access on a non-dict, indexing a string or list with a string key) are
modelled with an explicit `PyErr`, so a raising call site is visible in
the model exactly where CPython would raise.  Wall-clock timestamps
(`datetime.now()` / `time.time()`) are modelled by an integer tick
passed explicitly to each state-mutating operation.
-/

/-- Model of a Python/JSON value.  Objects are insertion-ordered
association lists (Python dicts preserve insertion order); the modelled
dict operations keep keys unique, and lookups read the first matching
entry.  The non-standard `NaN`/`Infinity` literals accepted by
`json.loads` have no counterpart here and are treated as parse errors. -/
inductive Json where
  | null : Json
  | bool (b : Bool) : Json
  | num (q : ℚ) : Json
  | str (s : String) : Json
  | arr (elems : List Json) : Json
  | obj (entries : List (String × Json)) : Json

mutual

/-- Structural equality test on JSON values (Python `==` restricted to
JSON trees; rational numbers already identify `1` with `1.0`). -/
def Json.beq : Json → Json → Bool
  | .null, .null => true
  | .bool a, .bool b => a == b
  | .num a, .num b => a == b
  | .str a, .str b => a == b
  | .arr a, .arr b => Json.beqElems a b
  | .obj a, .obj b => Json.beqEntries a b
  | _, _ => false

/-- Elementwise equality of JSON arrays. -/
def Json.beqElems : List Json → List Json → Bool
  | hd1 :: tl1, hd2 :: tl2 => Json.beq hd1 hd2 && Json.beqElems tl1 tl2
  | [], [] => true
  | _, _ => false

/-- Entrywise equality of JSON object entry lists. -/
def Json.beqEntries : List (String × Json) → List (String × Json) → Bool
  | (k1, v1) :: tl1, (k2, v2) :: tl2 =>
    k1 == k2 && Json.beq v1 v2 && Json.beqEntries tl1 tl2
  | [], [] => true
  | _, _ => false

end

instance : BEq Json := ⟨Json.beq⟩

/-- Model of a raised Python exception, by class. -/
inductive PyErr where
  | typeError : PyErr
  | keyError : PyErr
  | attributeError : PyErr
deriving DecidableEq

/-- First-match lookup in a JSON object's entry list (Python dict indexing). -/
def entriesGet (entries : List (String × Json)) (k : String) : Option Json :=
  (entries.find? (fun e => e.1 = k)).map (fun e => e.2)

/-- Python `k in d` for a dict `d`. -/
def entriesHasKey (entries : List (String × Json)) (k : String) : Bool :=
  (entries.find? (fun e => e.1 = k)).isSome

/-- Python `d.get(k, default)` for a dict `d`. -/
def entriesGetD (entries : List (String × Json)) (k : String) (d : Json) : Json :=
  (entriesGet entries k).getD d

/-- Python `k in v` for a string `k` and an arbitrary value `v`:
key membership for dicts, substring test for strings, element
membership for lists, and `TypeError` for non-containers. -/
def pyContains (v : Json) (k : String) : Except PyErr Bool :=
  match v with
  | .obj entries => .ok (entriesHasKey entries k)
  | .str s => .ok (decide (k.toList <:+: s.toList))
  | .arr xs => .ok (xs.contains (.str k))
  | _ => .error .typeError

/-- Python `v[k]` for a string key `k`: dict lookup (`KeyError` when the
key is absent), `TypeError` on every other value (string and list
indices must be integers). -/
def pyIndex (v : Json) (k : String) : Except PyErr Json :=
  match v with
  | .obj entries =>
    match entriesGet entries k with
    | some x => .ok x
    | none => .error .keyError
  | _ => .error .typeError

/-- Python `v.get(k, default)`: a dict method, so any non-dict value
raises `AttributeError`. -/
def pyGetD (v : Json) (k : String) (d : Json) : Except PyErr Json :=
  match v with
  | .obj entries => .ok (entriesGetD entries k d)
  | _ => .error .attributeError

/-- Python truthiness of a JSON value. -/
def jsonTruthy : Json → Bool
  | .null => false
  | .bool b => b
  | .num q => q != 0
  | .str s => s != ""
  | .arr xs => !xs.isEmpty
  | .obj entries => !entries.isEmpty

/-- Whether a value is usable as a Python dict key (lists and dicts are
unhashable). -/
def Json.hashable : Json → Bool
  | .arr _ => false
  | .obj _ => false
  | _ => true

/-- Python dict insert `d[k] = v`: replaces the value in place when the
key exists, otherwise appends a new entry at the end. -/
def entriesInsert (entries : List (String × Json)) (k : String) (v : Json) :
    List (String × Json) :=
  if entriesHasKey entries k then
    entries.map (fun e => if e.1 = k then (k, v) else e)
  else
    entries ++ [(k, v)]

/-- Python `{**a, **b}` and the mapping case of `a.update(b)`. -/
def entriesMerge (a b : List (String × Json)) : List (String × Json) :=
  b.foldl (fun acc e => entriesInsert acc e.1 e.2) a

/-- Python `a.update(b)` for an arbitrary value `b`: only the mapping
case is modelled; `dict.update` also accepts iterables of key/value
pairs, which never occur in this program's call sites. -/
def pyDictUpdate (a : List (String × Json)) (b : Json) :
    Except PyErr (List (String × Json)) :=
  match b with
  | .obj entries => .ok (entriesMerge a entries)
  | _ => .error .typeError

example : pyContains (.num 5) "blue" = .error .typeError := rfl
example : pyContains (.str "Xblue") "blue" = .ok true := rfl
example : pyIndex (.str "Xblue") "blue" = .error .typeError := rfl
example : entriesGet [("a", .num 1), ("b", .num 2)] "b" = some (.num 2) := rfl

/-- Whitespace characters skipped between JSON tokens by `json.loads`. -/
def jsonWs (c : Char) : Bool :=
  c = ' ' || c = '\t' || c = '\n' || c = '\r'

/-- Skip leading JSON whitespace. -/
def skipWs : List Char → List Char
  | c :: cs => if jsonWs c then skipWs cs else c :: cs
  | [] => []

/-- Hexadecimal digit value. -/
def hexVal (c : Char) : Option Nat :=
  if '0' ≤ c ∧ c ≤ '9' then some (c.toNat - 48)
  else if 'a' ≤ c ∧ c ≤ 'f' then some (c.toNat - 87)
  else if 'A' ≤ c ∧ c ≤ 'F' then some (c.toNat - 55)
  else none

/-- Parse exactly four hex digits of a `\uXXXX` escape. -/
def parseU4 : List Char → Option (Nat × List Char)
  | a :: b :: c :: d :: rest => do
    let va ← hexVal a
    let vb ← hexVal b
    let vc ← hexVal c
    let vd ← hexVal d
    some (((va * 16 + vb) * 16 + vc) * 16 + vd, rest)
  | _ => none

/-- Parse the body of a JSON string after the opening quote, returning
the decoded characters and the input after the closing quote.  Strict
mode: raw control characters are rejected; surrogate `\u` escapes are
combined into one code point (the lone-surrogate strings CPython would
produce cannot be represented as Lean strings and fail instead). -/
def parseStrBody : Nat → List Char → Option (List Char × List Char)
  | 0, _ => none
  | _, [] => none
  | fuel + 1, c :: rest =>
    if c = '"' then some ([], rest)
    else if c = '\\' then
      match rest with
      | [] => none
      | e :: r2 =>
        if e = 'u' then do
          let (n, r3) ← parseU4 r2
          if 0xD800 ≤ n ∧ n ≤ 0xDBFF then
            match r3 with
            | '\\' :: 'u' :: r4 => do
              let (m, r5) ← parseU4 r4
              if 0xDC00 ≤ m ∧ m ≤ 0xDFFF then do
                let (tail, r6) ← parseStrBody fuel r5
                some (Char.ofNat (0x10000 + (n - 0xD800) * 0x400 + (m - 0xDC00)) :: tail, r6)
              else none
            | _ => none
          else if 0xDC00 ≤ n ∧ n ≤ 0xDFFF then none
          else do
            let (tail, r3') ← parseStrBody fuel r3
            some (Char.ofNat n :: tail, r3')
        else do
          let ch ← match e with
            | '"' => some '"'
            | '\\' => some '\\'
            | '/' => some '/'
            | 'b' => some '\x08'
            | 'f' => some '\x0c'
            | 'n' => some '\n'
            | 'r' => some '\r'
            | 't' => some '\t'
            | _ => none
          let (tail, r3) ← parseStrBody fuel r2
          some (ch :: tail, r3)
    else if c.toNat < 0x20 then none
    else do
      let (tail, r2) ← parseStrBody fuel rest
      some (c :: tail, r2)

/-- Decimal digit test. -/
def isDigit (c : Char) : Bool := 48 ≤ c.toNat && c.toNat ≤ 57

/-- Accumulate decimal digits into a natural number. -/
def digitsVal (ds : List Char) : Nat :=
  ds.foldl (fun acc c => acc * 10 + (c.toNat - 48)) 0

/-- Parse the integer digits of a JSON number: a single `0`, or a
nonzero digit followed by more digits (the grammar of the `json`
module's number regex). -/
def parseIntDigits : List Char → Option (List Char × List Char)
  | [] => none
  | c :: rest =>
    if c = '0' then some ([c], rest)
    else if isDigit c then some (c :: rest.takeWhile isDigit, rest.dropWhile isDigit)
    else none

/-- Parse a JSON number following the `json` module's regex
`-?(0|[1-9][0-9]*)(\.[0-9]+)?([eE][-+]?[0-9]+)?`; the value is exact
as a rational. -/
def parseNumber (cs : List Char) : Option (ℚ × List Char) := do
  let (neg, cs1) : Bool × List Char :=
    match cs with
    | '-' :: tl => (true, tl)
    | _ => (false, cs)
  let (intDs, cs2) ← parseIntDigits cs1
  let (fracDs, cs3) := match cs2 with
    | '.' :: r =>
      if (r.takeWhile isDigit).isEmpty then (([] : List Char), cs2)
      else (r.takeWhile isDigit, r.dropWhile isDigit)
    | _ => ([], cs2)
  let (expNeg, expDs, cs4) := match cs3 with
    | e :: r =>
      if e = 'e' ∨ e = 'E' then
        match r with
        | '-' :: r2 =>
          if (r2.takeWhile isDigit).isEmpty then (false, ([] : List Char), cs3)
          else (true, r2.takeWhile isDigit, r2.dropWhile isDigit)
        | '+' :: r2 =>
          if (r2.takeWhile isDigit).isEmpty then (false, ([] : List Char), cs3)
          else (false, r2.takeWhile isDigit, r2.dropWhile isDigit)
        | _ =>
          if (r.takeWhile isDigit).isEmpty then (false, ([] : List Char), cs3)
          else (false, r.takeWhile isDigit, r.dropWhile isDigit)
      else (false, [], cs3)
    | [] => (false, [], cs3)
  let mantissa : Nat := digitsVal (intDs ++ fracDs)
  let sign : Int := if neg then -1 else 1
  let scale : Int := (if expNeg then -(digitsVal expDs : Int) else (digitsVal expDs : Int)) -
    (fracDs.length : Int)
  let q : ℚ :=
    if 0 ≤ scale then mkRat (sign * mantissa * (10 ^ scale.toNat : Nat)) 1
    else mkRat (sign * mantissa) (10 ^ (-scale).toNat)
  some (q, cs4)

mutual

/-- Parse one JSON value (after optional leading whitespace), returning
the value and the remaining input. -/
def parseValue : Nat → List Char → Option (Json × List Char)
  | 0, _ => none
  | fuel + 1, cs =>
    match skipWs cs with
    | 'n' :: 'u' :: 'l' :: 'l' :: more => some (.null, more)
    | 't' :: 'r' :: 'u' :: 'e' :: more => some (.bool true, more)
    | 'f' :: 'a' :: 'l' :: 's' :: 'e' :: more => some (.bool false, more)
    | '"' :: r => do
      let (body, r2) ← parseStrBody (r.length + 1) r
      some (.str (String.mk body), r2)
    | '[' :: r =>
      (match skipWs r with
       | ']' :: r2 => some (.arr [], r2)
       | r2 => do
         let (vs, r3) ← parseElems fuel r2
         some (.arr vs, r3))
    | '\x7b' :: r =>
      (match skipWs r with
       | '\x7d' :: r2 => some (.obj [], r2)
       | r2 => do
         let (entries, r3) ← parseMembers fuel [] r2
         some (.obj entries, r3))
    | other => do
      let (q, r) ← parseNumber other
      some (.num q, r)

/-- Parse the elements of a non-empty JSON array, positioned at the
start of a value; consumes the closing bracket. -/
def parseElems : Nat → List Char → Option (List Json × List Char)
  | 0, _ => none
  | fuel + 1, cs => do
    let (v, r) ← parseValue fuel cs
    match skipWs r with
    | ',' :: r2 => do
      let (vs, r3) ← parseElems fuel r2
      some (v :: vs, r3)
    | ']' :: r2 => some ([v], r2)
    | _ => none

/-- Parse the members of a non-empty JSON object, positioned at the
start of a key; consumes the closing brace.  A repeated key overwrites
the earlier value in place, as repeated dict assignment does. -/
def parseMembers : Nat → List (String × Json) → List Char →
    Option (List (String × Json) × List Char)
  | 0, _, _ => none
  | fuel + 1, acc, cs => do
    match skipWs cs with
    | '"' :: r => do
      let (key, r2) ← parseStrBody (r.length + 1) r
      match skipWs r2 with
      | ':' :: r3 => do
        let (v, r4) ← parseValue fuel r3
        let acc' := entriesInsert acc (String.mk key) v
        match skipWs r4 with
        | ',' :: r5 => parseMembers fuel acc' r5
        | '\x7d' :: r5 => some (acc', r5)
        | _ => none
      | _ => none
    | _ => none

end

/-- Model of `json.loads`: parse one JSON document and require the rest
of the input to be whitespace. -/
def jsonLoads (s : String) : Option Json :=
  let cs := s.toList
  match parseValue (cs.length + 1) cs with
  | some (j, rest) => if (skipWs rest).isEmpty then some j else none
  | none => none

example : jsonLoads " \x7b\"a\": [1, 2.5, \"x\"], \"b\": null\x7d " =
    some (.obj [("a", .arr [.num 1, .num (mkRat 5 2), .str "x"]), ("b", .null)]) := rfl
example : jsonLoads "\x7bbad json" = none := rfl
example : jsonLoads "true false" = none := rfl
example : jsonLoads "-12e2" = some (.num (-1200)) := rfl
example : jsonLoads "\"a\\nb\\u0041\"" = some (.str "a\nbA") := rfl

/-- GameState dataclass: current phase/clock/period/scores snapshot.
Field values arrive from JSON and are stored unvalidated, so they are
modelled as arbitrary JSON values; `last_updated` is the tick of the
most recent completed update. -/
structure GameState where
  phase : Json
  time : Json
  period : Json
  blue_score : Json
  red_score : Json
  last_updated : ℤ

/-- Dataclass defaults of `GameState`, constructed at tick `now`. -/
def GameState.init (now : ℤ) : GameState :=
  { phase := .str "unknown", time := .num 0, period := .num 0,
    blue_score := .num 0, red_score := .num 0, last_updated := now }

/-- Performance dataclass: frame-rate snapshot. -/
structure Performance where
  current_fps : Json
  min_fps : Json
  average_fps : Json
  max_fps : Json
  last_updated : ℤ

/-- Dataclass defaults of `Performance`, constructed at tick `now`. -/
def Performance.init (now : ℤ) : Performance :=
  { current_fps := .num 0, min_fps := .num 0, average_fps := .num 0,
    max_fps := .num 0, last_updated := now }

/-- Player dataclass: one tracked participant. -/
structure Player where
  client_id : Json
  username : Json
  state : Json
  team : Json
  role : Json
  number : Json
  goals : Json
  assists : Json
  ping : Json
  handedness : Json
  country : Json
  steam_id : Json
  patreon_level : Json
  admin_level : Json
  last_updated : ℤ

/-- The player `update_player` creates for an unseen client id:
`Player(client_id=client_id, username="unknown")` plus the dataclass
defaults for every other field. -/
def Player.fresh (client_id : Json) (now : ℤ) : Player :=
  { client_id := client_id, username := .str "unknown", state := .str "unknown",
    team := .str "none", role := .str "none", number := .num 0, goals := .num 0,
    assists := .num 0, ping := .num 0, handedness := .str "right",
    country := .str "", steam_id := .str "", patreon_level := .num 0,
    admin_level := .num 0, last_updated := now }

/-- GameStateManager: the store owning one GameState, one Performance,
the client-id-to-player dict (insertion ordered) and the last goal
payload. -/
structure GameStateManager where
  game_state : GameState
  players : List (Json × Player)
  performance : Performance
  last_goal_data : Option Json

/-- A freshly constructed `GameStateManager` at tick `now`. -/
def GameStateManager.init (now : ℤ) : GameStateManager :=
  { game_state := GameState.init now, players := [],
    performance := Performance.init now, last_goal_data := none }

/-- Python `client_id in self.players`: dict membership keyed by an
arbitrary value; unhashable keys (lists, dicts) raise `TypeError`. -/
def playersHasKey (ps : List (Json × Player)) (cid : Json) : Except PyErr Bool :=
  if cid.hashable then .ok ((ps.find? (fun e => Json.beq e.1 cid)).isSome)
  else .error .typeError

/-- Dict lookup in the players map (first matching key). -/
def playersGet (ps : List (Json × Player)) (cid : Json) : Option Player :=
  (ps.find? (fun e => Json.beq e.1 cid)).map (fun e => e.2)

/-- Dict insert into the players map: replace in place or append. -/
def playersInsert (ps : List (Json × Player)) (cid : Json) (p : Player) :
    List (Json × Player) :=
  if (ps.find? (fun e => Json.beq e.1 cid)).isSome then
    ps.map (fun e => if Json.beq e.1 cid then (e.1, p) else e)
  else
    ps ++ [(cid, p)]

/-- Python `del self.players[client_id]`. -/
def playersErase (ps : List (Json × Player)) (cid : Json) : List (Json × Player) :=
  ps.filter (fun e => !(Json.beq e.1 cid))

/-- Sequencing of two in-place mutation steps: a raise in the first
step keeps its partial state and skips the second step, as an
uncaught Python exception does. -/
def pySeq (r : α × Option PyErr) (f : α → α × Option PyErr) : α × Option PyErr :=
  match r with
  | (a, some e) => (a, some e)
  | (a, none) => f a

/-- The merge idiom `if key in data: obj.field = data[key]`, with the
Python raising behaviour of `in` and `[...]` on non-dict `data`. -/
def mergeField (key : String) (set : α → Json → α) (data : Json) (a : α) :
    α × Option PyErr :=
  match pyContains data key with
  | .error e => (a, some e)
  | .ok false => (a, none)
  | .ok true =>
    match pyIndex data key with
    | .error e => (a, some e)
    | .ok v => (set a v, none)

/-- The `scores` block of `update_game_state`: merge `blue` then `red`
from the scores value. -/
def updateScoresBlock (scores : Json) (g : GameState) : GameState × Option PyErr :=
  pySeq (mergeField "blue" (fun g v => { g with blue_score := v }) scores g)
    (fun g => mergeField "red" (fun g v => { g with red_score := v }) scores g)

/-- The `scores` clause of `update_game_state`:
`if "scores" in data: scores = data["scores"]; <merge blue, red>`. -/
def scoresStep (data : Json) (g : GameState) : GameState × Option PyErr :=
  match pyContains data "scores" with
  | .error e => (g, some e)
  | .ok false => (g, none)
  | .ok true =>
    match pyIndex data "scores" with
    | .error e => (g, some e)
    | .ok scores => updateScoresBlock scores g

/-- The body of `update_game_state` before the timestamp refresh:
merge phase, time, period, then the scores clause, in source order. -/
def gameStateMergeChain (data : Json) (g : GameState) : GameState × Option PyErr :=
  pySeq (mergeField "phase" (fun g v => { g with phase := v }) data g)
    (fun g => pySeq (mergeField "time" (fun g v => { g with time := v }) data g)
      (fun g => pySeq (mergeField "period" (fun g v => { g with period := v }) data g)
        (fun g => scoresStep data g)))

/-- `GameStateManager.update_game_state`: merge any of phase, time,
period, scores.blue, scores.red present in `data`, then refresh the
last-update tick; a raise mid-way keeps the partial merge and skips
the refresh. -/
def update_game_state (now : ℤ) (data : Json) (m : GameStateManager) :
    GameStateManager × Option PyErr :=
  let r := gameStateMergeChain data m.game_state
  match r.2 with
  | some e => ({ m with game_state := r.1 }, some e)
  | none => ({ m with game_state := { r.1 with last_updated := now } }, none)

/-- The field names `update_player` merges from incoming data. -/
def playerFieldNames : List String :=
  ["username", "state", "team", "role", "number", "goals", "assists", "ping",
   "handedness", "country", "steam_id", "patreon_level", "admin_level"]

/-- `setattr(player, name, v)` for the thirteen merged field names. -/
def setPlayerField (p : Player) (name : String) (v : Json) : Player :=
  if name = "username" then { p with username := v }
  else if name = "state" then { p with state := v }
  else if name = "team" then { p with team := v }
  else if name = "role" then { p with role := v }
  else if name = "number" then { p with number := v }
  else if name = "goals" then { p with goals := v }
  else if name = "assists" then { p with assists := v }
  else if name = "ping" then { p with ping := v }
  else if name = "handedness" then { p with handedness := v }
  else if name = "country" then { p with country := v }
  else if name = "steam_id" then { p with steam_id := v }
  else if name = "patreon_level" then { p with patreon_level := v }
  else if name = "admin_level" then { p with admin_level := v }
  else p

/-- The merge loop of `update_player` over `playerFieldNames`. -/
def mergePlayerData (player_data : Json) (p : Player) : Player × Option PyErr :=
  playerFieldNames.foldl
    (fun r name => pySeq r (fun p => mergeField name (fun p v => setPlayerField p name v) player_data p))
    (p, none)

/-- `GameStateManager.update_player`: create a default player for an
unseen id, merge the present fields, refresh the player's tick when
the merge completes without raising. -/
def update_player (now : ℤ) (client_id : Json) (player_data : Json)
    (m : GameStateManager) : GameStateManager × Option PyErr :=
  match playersHasKey m.players client_id with
  | .error e => (m, some e)
  | .ok present =>
    let ps0 := if present then m.players
      else playersInsert m.players client_id (Player.fresh client_id now)
    match playersGet ps0 client_id with
    | none => (m, none)
    | some p =>
      let r := mergePlayerData player_data p
      match r.2 with
      | some e => ({ m with players := playersInsert ps0 client_id r.1 }, some e)
      | none =>
        ({ m with players := playersInsert ps0 client_id { r.1 with last_updated := now } },
          none)

/-- `GameStateManager.remove_player`: delete the id if present, no-op
otherwise. -/
def remove_player (client_id : Json) (m : GameStateManager) :
    GameStateManager × Option PyErr :=
  match playersHasKey m.players client_id with
  | .error e => (m, some e)
  | .ok true => ({ m with players := playersErase m.players client_id }, none)
  | .ok false => (m, none)

/-- `GameStateManager.update_performance`: merge the nested fps fields;
the last-update tick is refreshed even when `fps` is absent, but not
when the block raises. -/
def update_performance (now : ℤ) (perf_data : Json) (m : GameStateManager) :
    GameStateManager × Option PyErr :=
  let r :=
    match pyContains perf_data "fps" with
    | .error e => (m.performance, some e)
    | .ok false => (m.performance, none)
    | .ok true =>
      match pyIndex perf_data "fps" with
      | .error e => (m.performance, some e)
      | .ok fps =>
        pySeq (mergeField "current" (fun p v => { p with current_fps := v }) fps m.performance)
          (fun p => pySeq (mergeField "min" (fun p v => { p with min_fps := v }) fps p)
            (fun p => pySeq (mergeField "average" (fun p v => { p with average_fps := v }) fps p)
              (fun p => mergeField "max" (fun p v => { p with max_fps := v }) fps p)))
  match r.2 with
  | some e => ({ m with performance := r.1 }, some e)
  | none => ({ m with performance := { r.1 with last_updated := now } }, none)

/-- `GameStateManager.set_last_goal_data`: store the payload verbatim. -/
def set_last_goal_data (goal_data : Json) (m : GameStateManager) : GameStateManager :=
  { m with last_goal_data := some goal_data }

/-- Python `s.lower()` (character-wise lowering). -/
def pyLower (s : String) : String :=
  String.mk (s.toList.map Char.toLower)

/-- The username scan shared by `GameStateManager.find_player_by_name`
and `Utilities.get_player_by_username`: first player whose username
equals the query case-insensitively; `.lower()` on a non-string
username raises. -/
def findPlayerByNameLoop (username : String) : List (Json × Player) →
    Except PyErr (Option Player)
  | [] => .ok none
  | (_, p) :: rest =>
    match p.username with
    | .str u =>
      if pyLower u = pyLower username then .ok (some p)
      else findPlayerByNameLoop username rest
    | _ => .error .attributeError

/-- `GameStateManager.find_player_by_name`. -/
def find_player_by_name (m : GameStateManager) (username : String) :
    Except PyErr (Option Player) :=
  findPlayerByNameLoop username m.players

/-- `Utilities.get_player_by_username` (iterates the same players dict
through `bridge.get_game_state()`, with the same comparison). -/
def get_player_by_username (m : GameStateManager) (username : String) :
    Except PyErr (Option Player) :=
  findPlayerByNameLoop username m.players

/-- `GameStateManager.is_connected`: the time-windowed connectivity
heuristic over the two last-update ticks and the roster size. -/
def GameStateManager.is_connected (m : GameStateManager) (current_time : ℤ) : Bool :=
  current_time - m.game_state.last_updated < 30 ||
  current_time - m.performance.last_updated < 30 ||
  0 < m.players.length

example :
    (update_game_state 5 (.obj [("scores", .num 5)]) (GameStateManager.init 0)).2 =
      some .typeError := rfl
example :
    (update_game_state 5 (.obj [("phase", .str "warmup")]) (GameStateManager.init 0)).1.game_state.phase =
      .str "warmup" := rfl

/-- A handler registered for one message type: an opaque identity plus
its effect on the shared state, which may raise. -/
structure SpecificHandler (σ : Type) where
  id : Nat
  run : Json → σ → σ × Option PyErr

/-- A global handler: receives the message type (as dispatched) and the
payload. -/
structure GlobalHandler (σ : Type) where
  id : Nat
  run : Json → Json → σ → σ × Option PyErr

/-- EventSystem: per-type handler lists plus global handlers, both in
registration order. -/
structure EventSystem (σ : Type) where
  handlers : List (String × List (SpecificHandler σ))
  global_handlers : List (GlobalHandler σ)

/-- A fresh `EventSystem()`. -/
def EventSystem.empty : EventSystem σ :=
  { handlers := [], global_handlers := [] }

/-- `EventSystem.register_handler`: create the type's list when absent,
then append. -/
def register_handler (es : EventSystem σ) (message_type : String)
    (h : SpecificHandler σ) : EventSystem σ :=
  if (es.handlers.find? (fun e => e.1 = message_type)).isSome then
    { es with handlers :=
        es.handlers.map (fun e => if e.1 = message_type then (e.1, e.2 ++ [h]) else e) }
  else
    { es with handlers := es.handlers ++ [(message_type, [h])] }

/-- `EventSystem.register_global_handler`: append. -/
def register_global_handler (es : EventSystem σ) (h : GlobalHandler σ) :
    EventSystem σ :=
  { es with global_handlers := es.global_handlers ++ [h] }

/-- The handler list dispatch walks for a type (empty when the type was
never registered). -/
def handlersFor (es : EventSystem σ) (message_type : String) :
    List (SpecificHandler σ) :=
  ((es.handlers.find? (fun e => e.1 = message_type)).map (fun e => e.2)).getD []

/-- The global-handler loop of `dispatch_message`: each call is wrapped
in `try/except`, so a raising handler is recorded and the loop
continues. -/
def runGlobalHandlers (hs : List (GlobalHandler σ)) (message_type : Json)
    (data : Json) (s : σ) : σ × List (Nat × Option PyErr) :=
  match hs with
  | [] => (s, [])
  | h :: rest =>
    let r := h.run message_type data s
    let rr := runGlobalHandlers rest message_type data r.1
    (rr.1, (h.id, r.2) :: rr.2)

/-- The type-specific handler loop of `dispatch_message`, with the same
per-handler `try/except`. -/
def runSpecificHandlers (hs : List (SpecificHandler σ)) (data : Json) (s : σ) :
    σ × List (Nat × Option PyErr) :=
  match hs with
  | [] => (s, [])
  | h :: rest =>
    let r := h.run data s
    let rr := runSpecificHandlers rest data r.1
    (rr.1, (h.id, r.2) :: rr.2)

/-- `EventSystem.dispatch_message` for a string message type: all
global handlers first, then the type's handlers; returns the final
state and the invocation trace (handler id, outcome). -/
def dispatch_message (es : EventSystem σ) (message_type : String) (data : Json)
    (s : σ) : σ × List (Nat × Option PyErr) :=
  let rg := runGlobalHandlers es.global_handlers (.str message_type) data s
  match es.handlers.find? (fun e => e.1 = message_type) with
  | none => rg
  | some e =>
    let rs := runSpecificHandlers e.2 data rg.1
    (rs.1, rg.2 ++ rs.2)

/-- `dispatch_message` as reached from `_process_single_message`, where
the dispatched type is an arbitrary JSON value: globals always run;
then `message_type in self._handlers` raises `TypeError` on an
unhashable type, is `False` for hashable non-strings, and behaves as
the string dispatch otherwise. -/
def dispatchMessageDyn (es : EventSystem σ) (message_type : Json) (data : Json)
    (s : σ) : σ × Option PyErr :=
  let s1 := (runGlobalHandlers es.global_handlers message_type data s).1
  match message_type with
  | .str t =>
    (match es.handlers.find? (fun e => e.1 = t) with
     | none => (s1, none)
     | some e => ((runSpecificHandlers e.2 data s1).1, none))
  | .arr _ => (s1, some .typeError)
  | .obj _ => (s1, some .typeError)
  | _ => (s1, none)

/-- The routing decision of `MessageParser._process_single_message`:
which EventBus type and data the message is dispatched with, or the
exception the routing checks raise before any dispatch. -/
def categorize (message : List (String × Json)) : Except PyErr (Json × Json) :=
  let payload := entriesGetD message "payload" (.obj [])
  let message_type := entriesGetD message "type" .null
  if Json.beq (entriesGetD message "role" .null) (.str "server") then
    match (if Json.beq message_type (.str "event") then pyContains payload "category"
           else (.ok false : Except PyErr Bool)) with
    | .error e => .error e
    | .ok true =>
      (match pyIndex payload "category" with
       | .error e => .error e
       | .ok category => .ok (category, payload))
    | .ok false =>
      if Json.beq message_type (.str "game_state") then .ok (.str "game_state", payload)
      else
        match (if Json.beq message_type (.str "status") then pyGetD payload "type" .null
               else (.ok .null : Except PyErr Json)) with
        | .error e => .error e
        | .ok v =>
          if Json.beq message_type (.str "status") && Json.beq v (.str "performance") then
            .ok (.str "performance", payload)
          else .ok (message_type, payload)
  else
    .ok (message_type, payload)

/-- `MessageParser._process_single_message`: route, then dispatch. -/
def _process_single_message (es : EventSystem σ) (message : List (String × Json))
    (s : σ) : σ × Option PyErr :=
  match categorize message with
  | .error e => (s, some e)
  | .ok td => dispatchMessageDyn es td.1 td.2 s

/-- `MessageParser.parse_message`: `json.loads`, then require a JSON
object containing `role`, `type` and `payload`. -/
def parse_message (raw_message : String) : Option (List (String × Json)) :=
  match jsonLoads raw_message with
  | none => none
  | some (.obj entries) =>
    if entriesHasKey entries "role" && entriesHasKey entries "type" &&
        entriesHasKey entries "payload" then
      some entries
    else none
  | some _ => none

/-- Python `str.strip()` whitespace (the ASCII part). -/
def pyWs (c : Char) : Bool :=
  c = ' ' || c = '\t' || c = '\n' || c = '\r' || c = '\x0b' || c = '\x0c'

/-- Python `s.strip()`. -/
def pyStrip (cs : List Char) : List Char :=
  ((cs.dropWhile pyWs).reverse.dropWhile pyWs).reverse

/-- Python `s.split("\n")` (keeps empty pieces). -/
def splitOnNl : List Char → List (List Char)
  | [] => [[]]
  | c :: rest =>
    if c = '\n' then [] :: splitOnNl rest
    else
      match splitOnNl rest with
      | line :: lines => (c :: line) :: lines
      | [] => [[c]]

/-- The line loop of `MessageParser.handle_message`: strip each line,
skip empty or unparseable lines, process the rest in order; an
exception raised while processing a message propagates and abandons
the remaining lines. -/
def processLines (es : EventSystem σ) : List (List Char) → σ → σ × Option PyErr
  | [], s => (s, none)
  | line :: rest, s =>
    let stripped := pyStrip line
    if stripped.isEmpty then processLines es rest s
    else
      match parse_message (String.mk stripped) with
      | none => processLines es rest s
      | some message =>
        let r := _process_single_message es message s
        match r.2 with
        | none => processLines es rest r.1
        | some e => (r.1, some e)

/-- `MessageParser.handle_message`: strip the chunk, split on newlines,
run the line loop. -/
def handle_message (es : EventSystem σ) (raw_message : String) (s : σ) :
    σ × Option PyErr :=
  processLines es (splitOnNl (pyStrip raw_message.toList)) s

/-- Built-in handler for `game_state`. -/
def _handle_game_state (now : ℤ) (data : Json) (m : GameStateManager) :
    GameStateManager × Option PyErr :=
  update_game_state now data m

/-- Built-in handler for `performance`. -/
def _handle_performance (now : ℤ) (data : Json) (m : GameStateManager) :
    GameStateManager × Option PyErr :=
  update_performance now data m

/-- Built-in handler for `player_spawned`: requires `payload.player`
with a non-None `clientId`, then upserts. -/
def _handle_player_spawned (now : ℤ) (data : Json) (m : GameStateManager) :
    GameStateManager × Option PyErr :=
  match pyContains data "player" with
  | .error e => (m, some e)
  | .ok false => (m, none)
  | .ok true =>
    match pyIndex data "player" with
    | .error e => (m, some e)
    | .ok player_data =>
      match pyGetD player_data "clientId" .null with
      | .error e => (m, some e)
      | .ok .null => (m, none)
      | .ok client_id =>
        match pyGetD player_data "username" (.str "unknown") with
        | .error e => (m, some e)
        | .ok _ => update_player now client_id player_data m

/-- Built-in handler for `player_despawned`: same extraction, then
removes. -/
def _handle_player_despawned (_now : ℤ) (data : Json) (m : GameStateManager) :
    GameStateManager × Option PyErr :=
  match pyContains data "player" with
  | .error e => (m, some e)
  | .ok false => (m, none)
  | .ok true =>
    match pyIndex data "player" with
    | .error e => (m, some e)
    | .ok player_data =>
      match pyGetD player_data "clientId" .null with
      | .error e => (m, some e)
      | .ok .null => (m, none)
      | .ok client_id =>
        match pyGetD player_data "username" (.str "unknown") with
        | .error e => (m, some e)
        | .ok _ => remove_player client_id m

/-- Built-in handler for `player_state_changed`: merges
`{"state": payload.newState}` plus any nested `payload.player` fields
into the player named by `payload.clientId`.  A non-string key the
Python dict could carry (a missing `property`-style name does not occur
here) never matches a merged field name, so only the mapping content
matters. -/
def _handle_player_state_changed (now : ℤ) (data : Json) (m : GameStateManager) :
    GameStateManager × Option PyErr :=
  match data with
  | .obj entries =>
    (match entriesGetD entries "clientId" .null with
     | .null => (m, none)
     | client_id =>
       let player_data : List (String × Json) := [("state", entriesGetD entries "newState" .null)]
       match (if entriesHasKey entries "player" then
                pyDictUpdate player_data (entriesGetD entries "player" .null)
              else .ok player_data) with
       | .error e => (m, some e)
       | .ok pd => update_player now client_id (.obj pd) m)
  | _ => (m, some .attributeError)

/-- Built-in handler for `player_property_changed`: merges
`{payload.property: payload.newValue}` plus any nested `payload.player`
fields.  A non-string property name would make a dict key no merged
field name can equal; it is modelled by dropping the entry. -/
def _handle_player_property_changed (now : ℤ) (data : Json) (m : GameStateManager) :
    GameStateManager × Option PyErr :=
  match data with
  | .obj entries =>
    (match entriesGetD entries "clientId" .null with
     | .null => (m, none)
     | client_id =>
       let base : List (String × Json) :=
         match entriesGetD entries "property" .null with
         | .str s => [(s, entriesGetD entries "newValue" .null)]
         | _ => []
       match (if entriesHasKey entries "player" then
                pyDictUpdate base (entriesGetD entries "player" .null)
              else .ok base) with
       | .error e => (m, some e)
       | .ok pd => update_player now client_id (.obj pd) m)
  | _ => (m, some .attributeError)

/-- Built-in handler for `goal_scored`: reads team/player names for the
log line (whose `.get` calls can raise on non-dict values), feeds a
truthy `scores` through `update_game_state`, and always records the
payload as the last goal. -/
def _handle_goal_scored (now : ℤ) (data : Json) (m : GameStateManager) :
    GameStateManager × Option PyErr :=
  match data with
  | .obj entries =>
    let scores := entriesGetD entries "scores" (.obj [])
    (match pyGetD (entriesGetD entries "players" (.obj [])) "goal" .null with
     | .error e => (m, some e)
     | .ok goal_player =>
       match (if jsonTruthy goal_player then pyGetD goal_player "username" (.str "unknown")
              else .ok (.str "unknown")) with
       | .error e => (m, some e)
       | .ok _ =>
         match pyGetD scores "blue" (.num 0) with
         | .error e => (m, some e)
         | .ok _ =>
           match pyGetD scores "red" (.num 0) with
           | .error e => (m, some e)
           | .ok _ =>
             let r := if jsonTruthy scores then
                 update_game_state now (.obj [("scores", scores)]) m
               else (m, none)
             match r.2 with
             | some e => (r.1, some e)
             | none => (set_last_goal_data data r.1, none))
  | _ => (m, some .attributeError)

/-- The built-in registrations of
`MessageParser._register_builtin_handlers`, in source order. -/
def builtinHandlerList (now : ℤ) : List (String × SpecificHandler GameStateManager) :=
  [("game_state", ⟨0, _handle_game_state now⟩),
   ("performance", ⟨1, _handle_performance now⟩),
   ("player_spawned", ⟨2, _handle_player_spawned now⟩),
   ("player_despawned", ⟨3, _handle_player_despawned now⟩),
   ("player_state_changed", ⟨4, _handle_player_state_changed now⟩),
   ("player_property_changed", ⟨5, _handle_player_property_changed now⟩),
   ("goal_scored", ⟨6, _handle_goal_scored now⟩)]

/-- The EventSystem as `MessageParser.__init__` leaves it. -/
def builtinEventSystem (now : ℤ) : EventSystem GameStateManager :=
  (builtinHandlerList now).foldl (fun es e => register_handler es e.1 e.2)
    EventSystem.empty

/-- Lowercase hex digit. -/
def hexDigit (n : Nat) : Char :=
  if n < 10 then Char.ofNat (48 + n) else Char.ofNat (87 + n)

/-- Four lowercase hex digits. -/
def hex4 (n : Nat) : List Char :=
  [hexDigit (n / 4096 % 16), hexDigit (n / 256 % 16), hexDigit (n / 16 % 16),
   hexDigit (n % 16)]

/-- One character as `json.dumps` (default `ensure_ascii=True`) emits
it inside a string literal. -/
def escChar (c : Char) : List Char :=
  if c = '"' then ['\\', '"']
  else if c = '\\' then ['\\', '\\']
  else if c = '\n' then ['\\', 'n']
  else if c = '\t' then ['\\', 't']
  else if c = '\r' then ['\\', 'r']
  else if c = '\x08' then ['\\', 'b']
  else if c = '\x0c' then ['\\', 'f']
  else if c.toNat < 0x20 || 0x7f ≤ c.toNat then
    if c.toNat < 0x10000 then '\\' :: 'u' :: hex4 c.toNat
    else
      ('\\' :: 'u' :: hex4 (0xD800 + (c.toNat - 0x10000) / 0x400)) ++
        ('\\' :: 'u' :: hex4 (0xDC00 + (c.toNat - 0x10000) % 0x400))
  else [c]

/-- A serialized JSON string literal. -/
def dumpStrChars (s : String) : List Char :=
  '"' :: s.toList.foldr (fun c acc => escChar c ++ acc) ['"']

/-- Decimal digits of a natural number. -/
def natDigitsAux : Nat → Nat → List Char
  | 0, _ => []
  | fuel + 1, n => if n = 0 then [] else natDigitsAux fuel (n / 10) ++ [Char.ofNat (48 + n % 10)]

/-- Decimal representation of a natural number. -/
def natDigits (n : Nat) : List Char :=
  if n = 0 then ['0'] else natDigitsAux (n + 1) n

/-- Serialization of a JSON number.  Integers print as Python ints.
Non-integers with a terminating decimal expansion (the only rationals
float payloads can produce) print in minimal decimal form; the program
only ever serializes integer fields, where this agrees with
`json.dumps` exactly (the model cannot distinguish `59` from `59.0`,
nor reproduce float `repr` for values without terminating decimals). -/
def numRepr (q : ℚ) : List Char :=
  let sign : List Char := if q.num < 0 then ['-'] else []
  if q.den = 1 then sign ++ natDigits q.num.natAbs
  else
    match (List.range (q.den + 1)).find? (fun k => 10 ^ k % q.den = 0) with
    | some k =>
      let scaled := q.num.natAbs * 10 ^ k / q.den
      let frac := natDigits (scaled % 10 ^ k)
      sign ++ natDigits (scaled / 10 ^ k) ++
        '.' :: (List.replicate (k - frac.length) '0' ++ frac)
    | none => sign ++ natDigits q.num.natAbs ++ '/' :: natDigits q.den

mutual

/-- `json.dumps` with the default separators `", "` and `": "`. -/
def dumpChars : Json → List Char
  | .null => 'n' :: "ull".toList
  | .bool true => 't' :: "rue".toList
  | .bool false => 'f' :: "alse".toList
  | .num q => numRepr q
  | .str s => dumpStrChars s
  | .arr xs => '[' :: (dumpElems xs ++ [']'])
  | .obj es => '\x7b' :: (dumpEntries es ++ ['\x7d'])

/-- Array elements, comma-space separated. -/
def dumpElems : List Json → List Char
  | [] => []
  | [x] => dumpChars x
  | x :: xs => dumpChars x ++ ',' :: ' ' :: dumpElems xs

/-- Object members, comma-space separated, colon-space after keys. -/
def dumpEntries : List (String × Json) → List Char
  | [] => []
  | [(k, v)] => dumpStrChars k ++ ':' :: ' ' :: dumpChars v
  | (k, v) :: es => dumpStrChars k ++ ':' :: ' ' :: dumpChars v ++ ',' :: ' ' :: dumpEntries es

end

/-- The single game-side connection: the environment decides whether a
socket write of given bytes succeeds or raises. -/
structure Peer where
  sendOk : String → Bool

/-- The connection-manager state `send_command` and `is_connected`
read: the at-most-one current peer. -/
structure PuckBridge where
  current_connection : Option Peer

/-- The envelope `send_command` builds:
`{"role": "client", "type": "command", "payload": {"command": name, **payload}}`. -/
def commandEnvelope (command_name : String) (payload : List (String × Json)) : Json :=
  Json.obj
    [("role", .str "client"), ("type", .str "command"),
     ("payload", .obj (entriesMerge [("command", .str command_name)] payload))]

/-- The bytes `send_command` writes: the serialized envelope plus the
newline terminator. -/
def commandLine (command_name : String) (payload : List (String × Json)) : String :=
  String.mk (dumpChars (commandEnvelope command_name payload) ++ ['\n'])

/-- `PuckBridge.send_command`: no peer means failure without raising;
otherwise serialize the command envelope as one newline-terminated JSON
line and write it, clearing the peer reference when the write raises.
The returned list holds the lines actually written. -/
def send_command (b : PuckBridge) (command_name : String)
    (payload : List (String × Json)) : Bool × PuckBridge × List String :=
  match b.current_connection with
  | none => (false, b, [])
  | some conn =>
    let message_json := commandLine command_name payload
    if conn.sendOk message_json then (true, b, [message_json])
    else (false, { b with current_connection := none }, [])

/-- `PuckBridge.is_connected`: exactly whether a peer is attached. -/
def PuckBridge.is_connected (b : PuckBridge) : Bool :=
  b.current_connection.isSome

/-- Sort key of `get_top_scorers`: the goals value (comparison is only
meaningful, and only used, when every goals value is numeric — mixed
types would raise in Python's `sorted`). -/
def playerGoalsQ (p : Player) : ℚ :=
  match p.goals with
  | .num q => q
  | _ => 0

/-- The descending-by-goals ordering `sorted(..., key=..., reverse=True)`
sorts by; Python's Timsort and insertion sort produce the same list
for a stable order, so the sort itself is modelled by
`List.insertionSort`. -/
def goalsDescRel (a b : Player) : Prop :=
  playerGoalsQ b ≤ playerGoalsQ a

instance : DecidableRel goalsDescRel := fun a b =>
  inferInstanceAs (Decidable (playerGoalsQ b ≤ playerGoalsQ a))

instance : IsTotal Player goalsDescRel :=
  ⟨fun a b => (le_total (playerGoalsQ b) (playerGoalsQ a)).imp id id⟩

instance : IsTrans Player goalsDescRel :=
  ⟨fun _ _ _ h1 h2 => le_trans h2 h1⟩

/-- `Utilities.get_top_scorers`: players in roster order, stably sorted
by goals descending, truncated to the limit. -/
def get_top_scorers (m : GameStateManager) (limit : Nat) : List Player :=
  (List.insertionSort goalsDescRel (m.players.map (fun e => e.2))).take limit

/-- A mutating operation on the store, as named by the public
contract: game-state delta, player upsert/remove, performance delta,
the goal-scored handling, recording a goal payload. -/
inductive StoreOp where
  | updGameState (data : Json) : StoreOp
  | updPlayer (client_id : Json) (player_data : Json) : StoreOp
  | rmPlayer (client_id : Json) : StoreOp
  | updPerformance (perf_data : Json) : StoreOp
  | goalScored (data : Json) : StoreOp
  | setLastGoal (data : Json) : StoreOp

/-- Apply one store operation at tick `now`. -/
def StoreOp.apply (now : ℤ) (op : StoreOp) (m : GameStateManager) :
    GameStateManager × Option PyErr :=
  match op with
  | .updGameState d => update_game_state now d m
  | .updPlayer cid pd => update_player now cid pd m
  | .rmPlayer cid => remove_player cid m
  | .updPerformance d => update_performance now d m
  | .goalScored d => _handle_goal_scored now d m
  | .setLastGoal d => (set_last_goal_data d m, none)

/-- Run a sequence of timestamped store operations, keeping the partial
state a raising operation leaves behind. -/
def runOps (ops : List (ℤ × StoreOp)) (m : GameStateManager) : GameStateManager :=
  ops.foldl (fun m op => (StoreOp.apply op.1 op.2 m).1) m

theorem find?_append_none {α} (p : α → Bool) (l₁ l₂ : List α)
    (h : l₁.find? p = none) : (l₁ ++ l₂).find? p = l₂.find? p := by
  induction l₁ with
  | nil => rfl
  | cons a l ih =>
    rw [List.find?_cons] at h
    rcases hp : p a with _ | _
    · simp only [List.cons_append, List.find?_cons, hp]
      exact ih (by simpa [hp] using h)
    · simp [hp] at h

theorem runGlobalHandlers_ids (hs : List (GlobalHandler σ)) (t d : Json) (s : σ) :
    (runGlobalHandlers hs t d s).2.map Prod.fst = hs.map GlobalHandler.id := by
  induction hs generalizing s with
  | nil => rfl
  | cons h rest ih => simp [runGlobalHandlers, ih]

theorem runSpecificHandlers_ids (hs : List (SpecificHandler σ)) (d : Json) (s : σ) :
    (runSpecificHandlers hs d s).2.map Prod.fst = hs.map SpecificHandler.id := by
  induction hs generalizing s with
  | nil => rfl
  | cons h rest ih => simp [runSpecificHandlers, ih]

theorem find?_map_key_preserving (hs : List (String × List (SpecificHandler σ)))
    (t : String) (g : String × List (SpecificHandler σ) → String × List (SpecificHandler σ))
    (hg : ∀ e, (g e).1 = e.1) :
    (hs.map g).find? (fun e => e.1 = t) = (hs.find? (fun e => e.1 = t)).map g := by
  induction hs with
  | nil => rfl
  | cons e rest ih =>
    rcases hp : (decide (e.1 = t)) with _ | _
    · simp only [List.map_cons, List.find?_cons, hg, hp, ih]
    · simp only [List.map_cons, List.find?_cons, hg, hp]
      rfl

/-- C2: for every dispatch, the invocation trace is exactly all global
handlers (registration order) followed by all handlers registered for
the type (registration order), independent of which handlers raise;
dispatch is total, so no handler exception reaches its caller.  The
second and third parts pin the registration order to list order:
registering appends. -/
theorem c2_dispatch_order_fault_isolation (σ : Type) (es : EventSystem σ)
    (message_type : String) (data : Json) (s : σ) :
    ((dispatch_message es message_type data s).2.map Prod.fst =
      es.global_handlers.map GlobalHandler.id ++
        (handlersFor es message_type).map SpecificHandler.id) ∧
    (∀ h : SpecificHandler σ,
      handlersFor (register_handler es message_type h) message_type =
        handlersFor es message_type ++ [h]) ∧
    (∀ h : GlobalHandler σ,
      (register_global_handler es h).global_handlers =
        es.global_handlers ++ [h]) := by
  refine ⟨?_, ?_, fun h => rfl⟩
  · unfold dispatch_message handlersFor
    rcases hfind : es.handlers.find? (fun e => e.1 = message_type) with _ | e
    · simp [hfind, runGlobalHandlers_ids]
    · simp [hfind, runGlobalHandlers_ids, runSpecificHandlers_ids]
  · intro h
    unfold register_handler handlersFor
    rcases hfind : es.handlers.find? (fun e => e.1 = message_type) with _ | e
    · simp only [hfind, Option.isSome_none, Bool.false_eq_true, if_false]
      rw [find?_append_none _ _ _ hfind]
      simp
    · have hkey : e.1 = message_type := by
        have := List.find?_some hfind
        simpa using this
      simp only [hfind, Option.isSome_some, if_true]
      rw [find?_map_key_preserving]
      · simp [hfind, hkey]
      · intro e'
        by_cases he : e'.1 = message_type <;> simp [he]

/-- C10: a freshly constructed store reports the 30-second connectivity
heuristic true at construction time (both timestamps are current and
the window is open), and in general the heuristic is false exactly when
both timestamps are at least 30 seconds old and the roster is empty. -/
theorem c10_connectivity_heuristic :
    (∀ t0 : ℤ, (GameStateManager.init t0).is_connected t0 = true) ∧
    (∀ (m : GameStateManager) (now : ℤ),
      m.is_connected now = false ↔
        (30 ≤ now - m.game_state.last_updated ∧
         30 ≤ now - m.performance.last_updated ∧ m.players = [])) := by
  constructor
  · intro t0
    simp [GameStateManager.is_connected, GameStateManager.init, GameState.init]
  · intro m now
    simp [GameStateManager.is_connected, not_lt, List.length_eq_zero, and_assoc]

theorem entriesGet_of_hasKey (es : List (String × Json)) (k : String)
    (h : entriesHasKey es k = true) :
    entriesGet es k = some (entriesGetD es k .null) := by
  unfold entriesHasKey at h
  unfold entriesGetD entriesGet
  rcases hfind : es.find? (fun e => e.1 = k) with _ | e
  · rw [hfind] at h
    simp at h
  · rw [hfind]
    rfl

/-- The categorization rule exactly as the specification words it,
written from the claim text, to be compared with the decoder's
`categorize`. -/
def routeSpec (role ty : Json) (payload : List (String × Json)) : Json × Json :=
  if Json.beq role (.str "server") then
    if Json.beq ty (.str "event") && entriesHasKey payload "category" then
      (entriesGetD payload "category" .null, .obj payload)
    else if Json.beq ty (.str "game_state") then
      (.str "game_state", .obj payload)
    else if Json.beq ty (.str "status") &&
        Json.beq (entriesGetD payload "type" .null) (.str "performance") then
      (.str "performance", .obj payload)
    else (ty, .obj payload)
  else (ty, .obj payload)

/-- C1: for every parsed envelope whose payload is a JSON object, the
decoder's routing agrees exactly with the specification's
categorization rule, and the message is dispatched with that routing's
type and the payload object as the handler data. -/
theorem c1_routing_follows_spec (message : List (String × Json))
    (payload : List (String × Json))
    (hp : entriesGetD message "payload" (.obj []) = .obj payload) :
    categorize message =
      .ok (routeSpec (entriesGetD message "role" .null)
        (entriesGetD message "type" .null) payload) ∧
    (∀ (σ : Type) (es : EventSystem σ) (s : σ),
      _process_single_message es message s =
        dispatchMessageDyn es
          (routeSpec (entriesGetD message "role" .null)
            (entriesGetD message "type" .null) payload).1
          (routeSpec (entriesGetD message "role" .null)
            (entriesGetD message "type" .null) payload).2 s) := by
  have hcat : categorize message =
      .ok (routeSpec (entriesGetD message "role" .null)
        (entriesGetD message "type" .null) payload) := by
    unfold categorize routeSpec
    rw [hp]
    rcases hrole : Json.beq (entriesGetD message "role" .null) (.str "server") with _ | _
    · simp [hrole]
    · rcases hev : Json.beq (entriesGetD message "type" .null) (.str "event") with _ | _
      · rcases hgs : Json.beq (entriesGetD message "type" .null) (.str "game_state") with _ | _
        · rcases hst : Json.beq (entriesGetD message "type" .null) (.str "status") with _ | _
          · simp [hrole, hev, hgs, hst]
          · rcases hperf : Json.beq (entriesGetD payload "type" .null) (.str "performance") with _ | _
            · simp [hrole, hev, hgs, hst, hperf, pyGetD]
            · simp [hrole, hev, hgs, hst, hperf, pyGetD]
        · simp [hrole, hev, hgs]
      · rcases hck : entriesHasKey payload "category" with _ | _
        · rcases hgs : Json.beq (entriesGetD message "type" .null) (.str "game_state") with _ | _
          · rcases hst : Json.beq (entriesGetD message "type" .null) (.str "status") with _ | _
            · simp [hrole, hev, hck, hgs, hst, pyContains]
            · rcases hperf : Json.beq (entriesGetD payload "type" .null) (.str "performance") with _ | _
              · simp [hrole, hev, hck, hgs, hst, hperf, pyContains, pyGetD]
              · simp [hrole, hev, hck, hgs, hst, hperf, pyContains, pyGetD]
          · simp [hrole, hev, hck, hgs, pyContains]
        · simp [hrole, hev, hck, pyContains, pyIndex, entriesGet_of_hasKey _ _ hck]
  refine ⟨hcat, fun σ es s => ?_⟩
  unfold _process_single_message
  rw [hcat]

/-- Witness for C1 at the spec's example event envelope, whose payload
category routes it to `goal_scored`. -/
theorem c1_routing_follows_spec_witness :
    categorize [("role", Json.str "server"), ("type", Json.str "event"),
        ("payload", Json.obj [("category", Json.str "goal_scored"),
          ("scores", Json.obj [("blue", Json.num 1), ("red", Json.num 0)])])] =
      .ok (routeSpec (Json.str "server") (Json.str "event")
        [("category", Json.str "goal_scored"),
         ("scores", Json.obj [("blue", Json.num 1), ("red", Json.num 0)])]) ∧
    routeSpec (Json.str "server") (Json.str "event")
        [("category", Json.str "goal_scored"),
         ("scores", Json.obj [("blue", Json.num 1), ("red", Json.num 0)])] =
      (Json.str "goal_scored",
        Json.obj [("category", Json.str "goal_scored"),
          ("scores", Json.obj [("blue", Json.num 1), ("red", Json.num 0)])]) :=
  ⟨(c1_routing_follows_spec
      [("role", Json.str "server"), ("type", Json.str "event"),
       ("payload", Json.obj [("category", Json.str "goal_scored"),
         ("scores", Json.obj [("blue", Json.num 1), ("red", Json.num 0)])])]
      [("category", Json.str "goal_scored"),
       ("scores", Json.obj [("blue", Json.num 1), ("red", Json.num 0)])] rfl).1, rfl⟩

/-- The envelopes a chunk contributes: non-empty lines that parse and
validate; malformed or invalid lines contribute nothing. -/
def validMessages (raw : String) : List (List (String × Json)) :=
  (splitOnNl (pyStrip raw.toList)).filterMap (fun line =>
    if (pyStrip line).isEmpty then none else parse_message (String.mk (pyStrip line)))

/-- Process a list of already-validated envelopes in order, stopping at
the first one whose processing raises. -/
def runMessages (es : EventSystem σ) : List (List (String × Json)) → σ → σ × Option PyErr
  | [], s => (s, none)
  | msg :: rest, s =>
    let r := _process_single_message es msg s
    match r.2 with
    | none => runMessages es rest r.1
    | some e => (r.1, some e)

theorem processLines_eq_runMessages (es : EventSystem σ) (lines : List (List Char))
    (s : σ) :
    processLines es lines s = runMessages es (lines.filterMap (fun line =>
      if (pyStrip line).isEmpty then none else parse_message (String.mk (pyStrip line)))) s := by
  induction lines generalizing s with
  | nil => rfl
  | cons line rest ih =>
    simp only [processLines, List.filterMap_cons]
    rcases he : (pyStrip line).isEmpty with _ | _
    · simp only [he, Bool.false_eq_true, if_false]
      rcases hm : parse_message (String.mk (pyStrip line)) with _ | msg
      · exact ih s
      · simp only [runMessages]
        rcases hr : (_process_single_message es msg s).2 with _ | e
        · exact ih _
        · rfl
    · simp only [he, if_true]
      exact ih s

/-- The spec's multi-line example chunk: a warmup update, a malformed
middle line, a period update. -/
def exampleChunk : String :=
  "\x7b\"role\":\"server\",\"type\":\"game_state\",\"payload\":\x7b\"phase\":\"warmup\"\x7d\x7d\n\x7bbad json\n\x7b\"role\":\"server\",\"type\":\"game_state\",\"payload\":\x7b\"period\":2\x7d\x7d"

/-- C3 (amended): the decoder splits each chunk on newlines and drops
every line that is empty, malformed JSON, a non-object, or an envelope
missing a required key — processing exactly the surviving envelopes in
order, stopping early only when processing one of them raises.  The
spec's warmup/malformed/period-2 chunk applies both updates: its
malformed middle line is dropped (only two envelopes survive) and the
chunk leaves phase "warmup" and period 2 without raising. -/
theorem c3_chunk_line_isolation :
    (∀ (σ : Type) (es : EventSystem σ) (raw : String) (s : σ),
      handle_message es raw s = runMessages es (validMessages raw) s) ∧
    (validMessages exampleChunk).length = 2 ∧
    (handle_message (builtinEventSystem 1) exampleChunk
        (GameStateManager.init 0)).1.game_state.phase = Json.str "warmup" ∧
    (handle_message (builtinEventSystem 1) exampleChunk
        (GameStateManager.init 0)).1.game_state.period = Json.num 2 ∧
    (handle_message (builtinEventSystem 1) exampleChunk
        (GameStateManager.init 0)).2 = none :=
  ⟨fun _σ es raw s => processLines_eq_runMessages es (splitOnNl (pyStrip raw.toList)) s,
    rfl, rfl, rfl, rfl⟩

/-- A chunk whose first line is a well-formed envelope (role, type and
payload all present) that raises during routing: `"category" in 0`
raises `TypeError`, aborting the rest of the chunk. -/
def abortChunk : String :=
  "\x7b\"role\":\"server\",\"type\":\"event\",\"payload\":0\x7d\n\x7b\"role\":\"server\",\"type\":\"game_state\",\"payload\":\x7b\"period\":2\x7d\x7d"

/-- The second line of `abortChunk` alone. -/
def abortChunkSecondLine : String :=
  "\x7b\"role\":\"server\",\"type\":\"game_state\",\"payload\":\x7b\"period\":2\x7d\x7d"

/-- Counterexample to C3 as stated: both lines of `abortChunk` are
well-formed envelopes, and the second alone sets period 2, yet
processing the chunk raises on the first line and leaves period at its
default — the remaining well-formed line is never processed. -/
theorem c3_counterexample :
    (parse_message "\x7b\"role\":\"server\",\"type\":\"event\",\"payload\":0\x7d").isSome = true ∧
    (parse_message abortChunkSecondLine).isSome = true ∧
    (handle_message (builtinEventSystem 1) abortChunkSecondLine
        (GameStateManager.init 0)).1.game_state.period = Json.num 2 ∧
    (handle_message (builtinEventSystem 1) abortChunk
        (GameStateManager.init 0)).2 = some PyErr.typeError ∧
    (handle_message (builtinEventSystem 1) abortChunk
        (GameStateManager.init 0)).1.game_state.period = Json.num 0 :=
  ⟨rfl, rfl, rfl, rfl, rfl⟩

/-- The comparison both username lookups apply: a string username that
equals the query after `.lower()` on both sides. -/
def usernameMatches (q : String) (p : Player) : Bool :=
  match p.username with
  | .str u => pyLower u = pyLower q
  | _ => false

theorem findPlayerByNameLoop_eq (q : String) (ps : List (Json × Player))
    (hstr : ∀ e ∈ ps, ∃ u, e.2.username = Json.str u) :
    findPlayerByNameLoop q ps =
      .ok ((ps.find? (fun e => usernameMatches q e.2)).map (fun e => e.2)) := by
  induction ps with
  | nil => rfl
  | cons e rest ih =>
    obtain ⟨cid, p⟩ := e
    obtain ⟨u, hu⟩ := hstr (cid, p) (List.mem_cons_self _ _)
    simp only at hu
    by_cases hm : pyLower u = pyLower q
    · simp [findPlayerByNameLoop, hu, List.find?_cons, usernameMatches, hm]
    · have hmatch : usernameMatches q (cid, p).2 = false := by
        simp [usernameMatches, hu, hm]
      simp only [findPlayerByNameLoop, hu, if_neg hm, List.find?_cons, hmatch]
      exact ih (fun e' he' => hstr e' (List.mem_cons_of_mem _ he'))

/-- C6 (amended): both username lookups return exactly the first player
whose username is a case-insensitive EXACT match of the query; in
particular a query that matches no username exactly — even one that
occurs as a case-insensitive substring of a username — returns nothing.
(The hypothesis restricts to rosters whose usernames are strings;
`.lower()` on a non-string would raise.) -/
theorem c6_username_lookup_exact_only (m : GameStateManager) (q : String)
    (hstr : ∀ e ∈ m.players, ∃ u, e.2.username = Json.str u) :
    find_player_by_name m q =
      .ok ((m.players.find? (fun e => usernameMatches q e.2)).map (fun e => e.2)) ∧
    get_player_by_username m q =
      .ok ((m.players.find? (fun e => usernameMatches q e.2)).map (fun e => e.2)) ∧
    ((∀ e ∈ m.players, usernameMatches q e.2 = false) →
      find_player_by_name m q = .ok none ∧ get_player_by_username m q = .ok none) := by
  have h := findPlayerByNameLoop_eq q m.players hstr
  refine ⟨h, h, fun hall => ?_⟩
  have hnone : m.players.find? (fun e => usernameMatches q e.2) = none :=
    List.find?_eq_none.mpr (fun e he => by simp [hall e he])
  constructor
  · rw [find_player_by_name, h, hnone]
    rfl
  · rw [get_player_by_username, h, hnone]
    rfl

/-- The single tracked player of `aliceStore`. -/
def alicePlayer : Player :=
  { Player.fresh (Json.num 1) 0 with username := Json.str "Alice" }

/-- A store tracking one player named "Alice". -/
def aliceStore : GameStateManager :=
  { GameStateManager.init 0 with players := [(Json.num 1, alicePlayer)] }

/-- Counterexample to C6 as stated: "lic" occurs case-insensitively as
a substring of "Alice" and is not a case-insensitive exact match, yet
both lookups return nothing — substring queries are not supported. -/
theorem c6_counterexample :
    decide ((pyLower "lic").toList <:+: (pyLower "Alice").toList) = true ∧
    (pyLower "lic" = pyLower "Alice" → False) ∧
    find_player_by_name aliceStore "lic" = .ok none ∧
    get_player_by_username aliceStore "lic" = .ok none := by
  refine ⟨rfl, fun h => ?_, rfl, rfl⟩
  exact absurd h (by decide)

/-- Witness for C6 at the one-player store: "ALICE" is an exact
case-insensitive match of "Alice" and is found by both lookups. -/
theorem c6_username_lookup_exact_only_witness :
    find_player_by_name aliceStore "ALICE" = .ok (some alicePlayer) ∧
    get_player_by_username aliceStore "ALICE" = .ok (some alicePlayer) :=
  ⟨((c6_username_lookup_exact_only aliceStore "ALICE"
      (fun e he => ⟨"Alice", by rw [List.mem_singleton.mp he]; rfl⟩)).1).trans (by rfl),
   ((c6_username_lookup_exact_only aliceStore "ALICE"
      (fun e he => ⟨"Alice", by rw [List.mem_singleton.mp he]; rfl⟩)).2.1).trans (by rfl)⟩

/-- Whether every tracked player's goals value is numeric — the
precondition under which Python's `sorted` comparisons cannot raise. -/
def playersAllNumericGoals (m : GameStateManager) : Bool :=
  m.players.all (fun e => match e.2.goals with | .num _ => true | _ => false)

theorem filter_orderedInsert_goalsEq (g : ℚ) (a : Player) (l : List Player) :
    (List.orderedInsert goalsDescRel a l).filter (fun p => decide (playerGoalsQ p = g)) =
      (a :: l).filter (fun p => decide (playerGoalsQ p = g)) := by
  induction l with
  | nil => rfl
  | cons b t ih =>
    simp only [List.orderedInsert]
    by_cases hab : goalsDescRel a b
    · rw [if_pos hab]
    · rw [if_neg hab]
      simp only [List.filter_cons, ih]
      by_cases hag : playerGoalsQ a = g
      · have hbg : ¬ (playerGoalsQ b = g) := by
          intro hbg
          exact hab (le_of_eq (hbg.trans hag.symm))
        simp [hag, hbg]
      · simp [hag]

theorem filter_insertionSort_goalsEq (g : ℚ) (l : List Player) :
    (List.insertionSort goalsDescRel l).filter (fun p => decide (playerGoalsQ p = g)) =
      l.filter (fun p => decide (playerGoalsQ p = g)) := by
  induction l with
  | nil => rfl
  | cons a t ih =>
    simp only [List.insertionSort]
    rw [filter_orderedInsert_goalsEq]
    simp only [List.filter_cons, ih]

/-- C9: `get_top_scorers` returns at most `limit` players, in
descending goals order, and players with equal goals keep their
original roster order — for each goals value, the returned players
with that value form a sublist of the roster's players with that value
in roster order.  (The hypothesis restricts to rosters whose goals are
all numeric, where Python's `sorted` is defined.) -/
theorem c9_top_scorers_sorted_stable (m : GameStateManager) (limit : Nat)
    (_hnum : playersAllNumericGoals m = true) :
    (get_top_scorers m limit).length ≤ limit ∧
    List.Pairwise goalsDescRel (get_top_scorers m limit) ∧
    (∀ g : ℚ,
      List.Sublist
        ((get_top_scorers m limit).filter (fun p => decide (playerGoalsQ p = g)))
        ((m.players.map (fun e => e.2)).filter (fun p => decide (playerGoalsQ p = g)))) := by
  refine ⟨List.length_take_le _ _, ?_, fun g => ?_⟩
  · exact List.Pairwise.sublist (List.take_sublist _ _)
      (List.sorted_insertionSort goalsDescRel _)
  · have hsub : List.Sublist
        ((get_top_scorers m limit).filter (fun p => decide (playerGoalsQ p = g)))
        ((List.insertionSort goalsDescRel (m.players.map (fun e => e.2))).filter
          (fun p => decide (playerGoalsQ p = g))) :=
      List.Sublist.filter _ (List.take_sublist _ _)
    rw [filter_insertionSort_goalsEq] at hsub
    exact hsub

/-- A demo player with the given client id and goal count. -/
def demoPlayer (cid g : ℚ) : Player :=
  { Player.fresh (Json.num cid) 0 with goals := Json.num g }

/-- The spec's demo roster with goals [3, 0, 5, 5] in roster order. -/
def demoStore : GameStateManager :=
  { GameStateManager.init 0 with players :=
      [(Json.num 1, demoPlayer 1 3), (Json.num 2, demoPlayer 2 0),
       (Json.num 3, demoPlayer 3 5), (Json.num 4, demoPlayer 4 5)] }

/-- Witness for C9: on goals [3, 0, 5, 5], the top-2 result is exactly
the two goals-5 players in their original relative order. -/
theorem c9_top_scorers_sorted_stable_witness :
    playersAllNumericGoals demoStore = true ∧
    (get_top_scorers demoStore 2).length ≤ 2 ∧
    get_top_scorers demoStore 2 = [demoPlayer 3 5, demoPlayer 4 5] :=
  ⟨rfl, (c9_top_scorers_sorted_stable demoStore 2 rfl).1, rfl⟩

mutual

theorem Json.beq_refl : ∀ j : Json, Json.beq j j = true
  | .null => rfl
  | .bool b => by simp [Json.beq]
  | .num q => by simp [Json.beq]
  | .str s => by simp [Json.beq]
  | .arr xs => by simp [Json.beq, Json.beqElems_refl xs]
  | .obj es => by simp [Json.beq, Json.beqEntries_refl es]

theorem Json.beqElems_refl : ∀ xs : List Json, Json.beqElems xs xs = true
  | [] => rfl
  | x :: xs => by simp [Json.beqElems, Json.beq_refl x, Json.beqElems_refl xs]

theorem Json.beqEntries_refl : ∀ es : List (String × Json), Json.beqEntries es es = true
  | [] => rfl
  | (k, v) :: es => by simp [Json.beqEntries, Json.beq_refl v, Json.beqEntries_refl es]

end

theorem playersGet_erase (ps : List (Json × Player)) (cid : Json) :
    playersGet (playersErase ps cid) cid = none := by
  unfold playersGet playersErase
  induction ps with
  | nil => rfl
  | cons e rest ih =>
    rcases hb : Json.beq e.1 cid with _ | _
    · simp [List.filter_cons, List.find?_cons, hb, ih]
    · simp [List.filter_cons, hb, ih]

theorem find?_map_replace (ps : List (Json × Player)) (cid : Json) (p : Player)
    (h : (ps.find? (fun e => Json.beq e.1 cid)).isSome = true) :
    ((ps.map (fun e => if Json.beq e.1 cid then (e.1, p) else e)).find?
      (fun e => Json.beq e.1 cid)).map (fun e => e.2) = some p := by
  induction ps with
  | nil => simp at h
  | cons e rest ih =>
    rcases hb : Json.beq e.1 cid with _ | _
    · have h' : (rest.find? (fun e => Json.beq e.1 cid)).isSome = true := by
        simpa [List.find?_cons, hb] using h
      simp only [List.map_cons, hb, Bool.false_eq_true, if_false, List.find?_cons]
      simpa [hb] using ih h'
    · simp [List.find?_cons, hb]

theorem playersGet_insert (ps : List (Json × Player)) (cid : Json) (p : Player) :
    playersGet (playersInsert ps cid p) cid = some p := by
  unfold playersInsert playersGet
  rcases hfound : (ps.find? (fun e => Json.beq e.1 cid)).isSome with _ | _
  · simp only [hfound, Bool.false_eq_true, if_false]
    rw [find?_append_none _ _ _ (Option.not_isSome_iff_eq_none.mp (by simp [hfound]))]
    simp [List.find?_cons, Json.beq_refl]
  · simp only [hfound, if_true]
    exact find?_map_replace ps cid p hfound

theorem mergeField_obj_err {α : Type} (key : String) (set : α → Json → α)
    (es : List (String × Json)) (a : α) :
    (mergeField key set (.obj es) a).2 = none := by
  unfold mergeField pyContains
  rcases h : entriesHasKey es key with _ | _
  · simp [h]
  · simp [h, pyIndex, entriesGet_of_hasKey _ _ h]

theorem foldl_pySeq_mergeField_err (pd : List (String × Json)) (names : List String)
    (r : Player × Option PyErr) (hr : r.2 = none) :
    (names.foldl (fun r name => pySeq r
      (fun p => mergeField name (fun p v => setPlayerField p name v) (.obj pd) p)) r).2 =
      none := by
  induction names generalizing r with
  | nil => exact hr
  | cons n ns ih =>
    simp only [List.foldl_cons]
    apply ih
    rcases r with ⟨a, e⟩
    simp only at hr
    subst hr
    exact mergeField_obj_err n (fun p v => setPlayerField p n v) pd a

theorem mergePlayerData_obj_err (pd : List (String × Json)) (p : Player) :
    (mergePlayerData (.obj pd) p).2 = none :=
  foldl_pySeq_mergeField_err pd playerFieldNames (p, none) rfl

theorem remove_player_clears (cid : Json) (m : GameStateManager)
    (hh : cid.hashable = true) :
    playersGet ((remove_player cid m).1).players cid = none ∧
    (remove_player cid m).2 = none := by
  unfold remove_player playersHasKey
  rw [hh]
  simp only [if_true]
  rcases hfound : (m.players.find? (fun e => Json.beq e.1 cid)).isSome with _ | _
  · have hnone : m.players.find? (fun e => Json.beq e.1 cid) = none :=
      Option.not_isSome_iff_eq_none.mp (by simp [hfound])
    simp only [hfound]
    constructor
    · simp only [playersGet]
      rw [hnone]
      rfl
    · trivial
  · simp only [hfound]
    exact ⟨playersGet_erase m.players cid, trivial⟩

theorem update_player_fresh (now : ℤ) (cid : Json) (pd : List (String × Json))
    (m : GameStateManager) (hh : cid.hashable = true)
    (habs : playersGet m.players cid = none) :
    (update_player now cid (.obj pd) m).1.players =
      playersInsert (playersInsert m.players cid (Player.fresh cid now)) cid
        { (mergePlayerData (.obj pd) (Player.fresh cid now)).1 with last_updated := now } ∧
    (update_player now cid (.obj pd) m).2 = none := by
  have hfind : m.players.find? (fun e => Json.beq e.1 cid) = none := by
    unfold playersGet at habs
    rcases hf : m.players.find? (fun e => Json.beq e.1 cid) with _ | e
    · exact hf
    · rw [hf] at habs
      simp at habs
  unfold update_player playersHasKey
  rw [hh]
  simp only [if_true, hfind, Option.isSome_none, Bool.false_eq_true, if_false]
  rw [playersGet_insert]
  have herr := mergePlayerData_obj_err pd (Player.fresh cid now)
  rcases hr : mergePlayerData (.obj pd) (Player.fresh cid now) with ⟨p', e⟩
  rw [hr] at herr
  simp only at herr
  subst herr
  simp [hr]

/-- C8: upsert then remove leaves the roster with no entry for the id
and the removal does not raise; a subsequent upsert for the same id
stores a brand-new player built from the documented defaults merged
with only the new payload's fields — nothing from the removed player
survives (the result does not depend on the earlier payload or
roster). -/
theorem c8_remove_then_recreate (now1 now2 : ℤ) (cid : Json)
    (pd1 pd2 : List (String × Json)) (m : GameStateManager)
    (hh : cid.hashable = true) :
    playersGet ((remove_player cid (update_player now1 cid (.obj pd1) m).1).1).players
      cid = none ∧
    (remove_player cid (update_player now1 cid (.obj pd1) m).1).2 = none ∧
    playersGet ((update_player now2 cid (.obj pd2)
        (remove_player cid (update_player now1 cid (.obj pd1) m).1).1).1).players cid =
      some { (mergePlayerData (.obj pd2) (Player.fresh cid now2)).1 with
               last_updated := now2 } := by
  obtain ⟨hclear, herr⟩ :=
    remove_player_clears cid (update_player now1 cid (.obj pd1) m).1 hh
  refine ⟨hclear, herr, ?_⟩
  obtain ⟨hup, _⟩ := update_player_fresh now2 cid pd2
    (remove_player cid (update_player now1 cid (.obj pd1) m).1).1 hh hclear
  rw [hup, playersGet_insert]

/-- Witness for C8 at client id 7: after upsert+remove the id is gone,
and re-upserting with a team field yields exactly the default player
with that team and the new tick. -/
theorem c8_remove_then_recreate_witness :
    playersGet ((remove_player (Json.num 7) (update_player 1 (Json.num 7)
        (.obj [("username", Json.str "Ann"), ("goals", Json.num 3)])
        (GameStateManager.init 0)).1).1).players (Json.num 7) = none ∧
    playersGet ((update_player 5 (Json.num 7) (.obj [("team", Json.str "blue")])
        ((remove_player (Json.num 7) (update_player 1 (Json.num 7)
          (.obj [("username", Json.str "Ann"), ("goals", Json.num 3)])
          (GameStateManager.init 0)).1).1)).1).players (Json.num 7) =
      some { Player.fresh (Json.num 7) 5 with team := Json.str "blue", last_updated := 5 } :=
  ⟨(c8_remove_then_recreate 1 5 (Json.num 7)
      [("username", Json.str "Ann"), ("goals", Json.num 3)] [("team", Json.str "blue")]
      (GameStateManager.init 0) rfl).1,
   ((c8_remove_then_recreate 1 5 (Json.num 7)
      [("username", Json.str "Ann"), ("goals", Json.num 3)] [("team", Json.str "blue")]
      (GameStateManager.init 0) rfl).2.2).trans (by rfl)⟩

theorem hexDigit_fin_ne_newline : ∀ n : Fin 16, hexDigit n.val ≠ '\n' := by decide

theorem hexDigit_mod_ne_newline (n : Nat) : hexDigit (n % 16) ≠ '\n' :=
  hexDigit_fin_ne_newline ⟨n % 16, Nat.mod_lt _ (by norm_num)⟩

theorem hex4_ne_newline (n : Nat) : '\n' ∉ hex4 n := by
  unfold hex4
  intro hmem
  simp only [List.mem_cons, List.not_mem_nil, or_false] at hmem
  rcases hmem with h | h | h | h <;> exact hexDigit_mod_ne_newline _ h.symm

theorem decDigit_fin_ne_newline : ∀ n : Fin 10, Char.ofNat (48 + n.val) ≠ '\n' := by decide

theorem natDigitsAux_ne_newline (fuel n : Nat) : '\n' ∉ natDigitsAux fuel n := by
  induction fuel generalizing n with
  | zero => simp [natDigitsAux]
  | succ f ih =>
    unfold natDigitsAux
    by_cases h : n = 0
    · simp [h]
    · simp only [h, if_false]
      intro hmem
      rcases List.mem_append.mp hmem with h1 | h2
      · exact ih _ h1
      · have heq : ('\n' : Char) = Char.ofNat (48 + n % 10) := List.mem_singleton.mp h2
        exact decDigit_fin_ne_newline ⟨n % 10, Nat.mod_lt _ (by norm_num)⟩ heq.symm

theorem natDigits_ne_newline (n : Nat) : '\n' ∉ natDigits n := by
  unfold natDigits
  by_cases h : n = 0
  · simp [h]
  · simp only [h, if_false]
    exact natDigitsAux_ne_newline _ _

theorem replicate_zero_ne_newline (k : Nat) : '\n' ∉ List.replicate k '0' := by
  intro hmem
  have heq := List.eq_of_mem_replicate hmem
  exact absurd heq (by decide)

theorem sign_ne_newline (q : ℚ) : '\n' ∉ (if q.num < 0 then ['-'] else ([] : List Char)) := by
  by_cases h : q.num < 0 <;> simp [h]

theorem numRepr_ne_newline (q : ℚ) : '\n' ∉ numRepr q := by
  unfold numRepr
  intro hmem
  by_cases hden : q.den = 1
  · simp only [hden, if_true] at hmem
    rcases List.mem_append.mp hmem with h1 | h2
    · exact sign_ne_newline q h1
    · exact natDigits_ne_newline _ h2
  · simp only [hden, if_false] at hmem
    rcases hfind : (List.range (q.den + 1)).find? (fun k => 10 ^ k % q.den = 0) with _ | k <;>
      rw [hfind] at hmem
    · rcases List.mem_append.mp hmem with h1 | h2
      · rcases List.mem_append.mp h1 with ha | hb
        · exact sign_ne_newline q ha
        · exact natDigits_ne_newline _ hb
      · rcases List.mem_cons.mp h2 with hs | hr
        · exact absurd hs (by decide)
        · exact natDigits_ne_newline _ hr
    · rcases List.mem_append.mp hmem with h1 | h2
      · rcases List.mem_append.mp h1 with ha | hb
        · exact sign_ne_newline q ha
        · exact natDigits_ne_newline _ hb
      · rcases List.mem_cons.mp h2 with hs | hr
        · exact absurd hs (by decide)
        · rcases List.mem_append.mp hr with h7 | h8
          · exact replicate_zero_ne_newline _ h7
          · exact natDigits_ne_newline _ h8

theorem escChar_ne_newline (c : Char) : '\n' ∉ escChar c := by
  unfold escChar
  by_cases h1 : c = '"'
  · simp [h1]
  by_cases h2 : c = '\\'
  · simp [h1, h2]
  by_cases h3 : c = '\n'
  · simp [h1, h2, h3]
  by_cases h4 : c = '\t'
  · simp [h1, h2, h3, h4]
  by_cases h5 : c = '\r'
  · simp [h1, h2, h3, h4, h5]
  by_cases h6 : c = '\x08'
  · simp [h1, h2, h3, h4, h5, h6]
  by_cases h7 : c = '\x0c'
  · simp [h1, h2, h3, h4, h5, h6, h7]
  simp only [h1, h2, h3, h4, h5, h6, h7, if_false]
  rcases h8 : (decide (c.toNat < 0x20) || decide (0x7f ≤ c.toNat)) with _ | _
  · simp only [h8, Bool.false_eq_true, if_false]
    intro hmem
    exact h3 (List.mem_singleton.mp hmem).symm
  · simp only [h8, if_true]
    by_cases h9 : c.toNat < 0x10000
    · simp only [h9, if_true]
      intro hmem
      rcases List.mem_cons.mp hmem with h | hmem2
      · exact absurd h (by decide)
      rcases List.mem_cons.mp hmem2 with h | h
      · exact absurd h (by decide)
      · exact hex4_ne_newline _ h
    · simp only [h9, if_false]
      intro hmem
      rcases List.mem_append.mp hmem with hl | hr
      · rcases List.mem_cons.mp hl with h | hl2
        · exact absurd h (by decide)
        rcases List.mem_cons.mp hl2 with h | h
        · exact absurd h (by decide)
        · exact hex4_ne_newline _ h
      · rcases List.mem_cons.mp hr with h | hr2
        · exact absurd h (by decide)
        rcases List.mem_cons.mp hr2 with h | h
        · exact absurd h (by decide)
        · exact hex4_ne_newline _ h

theorem foldr_escChar_ne_newline (cs : List Char) (tail : List Char)
    (htail : '\n' ∉ tail) :
    '\n' ∉ cs.foldr (fun c acc => escChar c ++ acc) tail := by
  induction cs with
  | nil => exact htail
  | cons c rest ih =>
    simp only [List.foldr_cons]
    intro hmem
    rcases List.mem_append.mp hmem with h1 | h2
    · exact escChar_ne_newline c h1
    · exact ih h2

theorem dumpStrChars_ne_newline (s : String) : '\n' ∉ dumpStrChars s := by
  unfold dumpStrChars
  intro hmem
  rcases List.mem_cons.mp hmem with h | h
  · exact absurd h (by decide)
  · exact foldr_escChar_ne_newline _ _ (by decide) h

mutual

theorem dumpChars_ne_newline : ∀ j : Json, '\n' ∉ dumpChars j
  | .null => by decide
  | .bool true => by decide
  | .bool false => by decide
  | .num q => numRepr_ne_newline q
  | .str s => dumpStrChars_ne_newline s
  | .arr xs => by
    unfold dumpChars
    intro hmem
    rcases List.mem_cons.mp hmem with h | h
    · exact absurd h (by decide)
    · rcases List.mem_append.mp h with h1 | h2
      · exact dumpElems_ne_newline xs h1
      · exact absurd (List.mem_singleton.mp h2) (by decide)
  | .obj es => by
    unfold dumpChars
    intro hmem
    rcases List.mem_cons.mp hmem with h | h
    · exact absurd h (by decide)
    · rcases List.mem_append.mp h with h1 | h2
      · exact dumpEntries_ne_newline es h1
      · exact absurd (List.mem_singleton.mp h2) (by decide)

theorem dumpElems_ne_newline : ∀ xs : List Json, '\n' ∉ dumpElems xs
  | [] => by simp [dumpElems]
  | [x] => by
    unfold dumpElems
    exact dumpChars_ne_newline x
  | x :: y :: xs => by
    unfold dumpElems
    intro hmem
    rcases List.mem_append.mp hmem with h1 | h2
    · exact dumpChars_ne_newline x h1
    · rcases List.mem_cons.mp h2 with h | h3
      · exact absurd h (by decide)
      · rcases List.mem_cons.mp h3 with h | h4
        · exact absurd h (by decide)
        · exact dumpElems_ne_newline (y :: xs) h4

theorem dumpEntries_ne_newline : ∀ es : List (String × Json), '\n' ∉ dumpEntries es
  | [] => by simp [dumpEntries]
  | [(k, v)] => by
    unfold dumpEntries
    intro hmem
    rcases List.mem_append.mp hmem with h1 | h2
    · exact dumpStrChars_ne_newline k h1
    · rcases List.mem_cons.mp h2 with h | h3
      · exact absurd h (by decide)
      · rcases List.mem_cons.mp h3 with h | h4
        · exact absurd h (by decide)
        · exact dumpChars_ne_newline v h4
  | (k, v) :: e2 :: es => by
    unfold dumpEntries
    intro hmem
    rcases List.mem_append.mp hmem with h1 | h2
    · rcases List.mem_append.mp h1 with h3 | h4
      · exact dumpStrChars_ne_newline k h3
      · rcases List.mem_cons.mp h4 with h | h5
        · exact absurd h (by decide)
        · rcases List.mem_cons.mp h5 with h | h6
          · exact absurd h (by decide)
          · exact dumpChars_ne_newline v h6
    · rcases List.mem_cons.mp h2 with h | h3
      · exact absurd h (by decide)
      · rcases List.mem_cons.mp h3 with h | h4
        · exact absurd h (by decide)
        · exact dumpEntries_ne_newline (e2 :: es) h4

end

theorem splitOnNl_append_newline (xs : List Char) (h : '\n' ∉ xs) :
    splitOnNl (xs ++ ['\n']) = [xs, []] := by
  induction xs with
  | nil => rfl
  | cons c cs ih =>
    have hc : ¬ (c = '\n') := fun e => h (e ▸ List.mem_cons_self _ _)
    simp only [List.cons_append, splitOnNl, if_neg hc]
    rw [show cs.append ['\n'] = cs ++ ['\n'] from rfl,
      ih (fun hm => h (List.mem_cons_of_mem _ hm))]

theorem entriesMerge_append_of_disjoint (b : List (String × Json)) :
    ∀ a : List (String × Json),
    (∀ e ∈ b, entriesHasKey a e.1 = false) → (b.map Prod.fst).Nodup →
    entriesMerge a b = a ++ b := by
  induction b with
  | nil => intro a _ _; simp [entriesMerge]
  | cons e rest ih =>
    rcases e with ⟨k, v⟩
    intro a hd hnd
    unfold entriesMerge
    simp only [List.foldl_cons]
    have hins : entriesInsert a k v = a ++ [(k, v)] := by
      simp [entriesInsert, hd (k, v) (List.mem_cons_self _ _)]
    rw [hins]
    have hk : k ∉ rest.map Prod.fst := by
      have := hnd
      simp only [List.map_cons, List.nodup_cons] at this
      exact this.1
    have hd' : ∀ e' ∈ rest, entriesHasKey (a ++ [(k, v)]) e'.1 = false := by
      intro e' he'
      have h1 : entriesHasKey a e'.1 = false := hd e' (List.mem_cons_of_mem _ he')
      have hne : ¬ (k = e'.1) := by
        intro hEq
        exact hk (hEq ▸ List.mem_map_of_mem Prod.fst he')
      unfold entriesHasKey at h1 ⊢
      rw [find?_append_none _ _ _ (Option.not_isSome_iff_eq_none.mp (by simp [h1]))]
      simp [List.find?_cons, hne]
    have hrest := ih (a ++ [(k, v)]) hd'
      ((List.nodup_cons.mp (by simpa using hnd)).2)
    unfold entriesMerge at hrest
    rw [hrest, List.append_assoc, List.singleton_append]

/-- C7 (amended): with no peer attached, `send_command` fails without
raising or writing; when the write raises, it fails, clears the peer
(so `is_connected` is immediately false) and writes nothing; on
success it writes exactly one line — the serialized command envelope,
newline-terminated and newline-free inside — and the envelope is
`{"role":"client","type":"command","payload":{"command":name,**payload}}`,
which equals the claim's literal form whenever the extra payload does
not itself contain a "command" key (a payload "command" entry overrides
the command name). -/
theorem c7_send_command_contract (b : PuckBridge) (command_name : String)
    (payload : List (String × Json)) :
    (b.current_connection = none →
      send_command b command_name payload = (false, b, [])) ∧
    (∀ conn, b.current_connection = some conn →
      conn.sendOk (commandLine command_name payload) = false →
      send_command b command_name payload =
        (false, { current_connection := none }, []) ∧
      ({ current_connection := none } : PuckBridge).is_connected = false) ∧
    (∀ conn, b.current_connection = some conn →
      conn.sendOk (commandLine command_name payload) = true →
      send_command b command_name payload =
        (true, b, [commandLine command_name payload])) ∧
    ((commandLine command_name payload).toList =
      dumpChars (commandEnvelope command_name payload) ++ ['\n'] ∧
     splitOnNl ((commandLine command_name payload).toList) =
      [dumpChars (commandEnvelope command_name payload), []]) ∧
    (entriesHasKey payload "command" = false → (payload.map Prod.fst).Nodup →
      commandEnvelope command_name payload =
        Json.obj [("role", Json.str "client"), ("type", Json.str "command"),
          ("payload", Json.obj (("command", Json.str command_name) :: payload))]) := by
  refine ⟨?_, ?_, ?_, ⟨rfl, ?_⟩, ?_⟩
  · intro h
    unfold send_command
    rw [h]
  · intro conn hc hf
    refine ⟨?_, rfl⟩
    unfold send_command
    rw [hc]
    simp [hf]
  · intro conn hc ht
    unfold send_command
    rw [hc]
    simp [ht]
  · exact splitOnNl_append_newline _ (dumpChars_ne_newline _)
  · intro hnc hnd
    unfold commandEnvelope
    have hd : ∀ e ∈ payload, entriesHasKey [("command", Json.str command_name)] e.1 = false := by
      intro e he
      have hfnone : payload.find? (fun x => x.1 = "command") = none := by
        unfold entriesHasKey at hnc
        exact Option.not_isSome_iff_eq_none.mp (by simp [hnc])
      have hne : ¬ (e.1 = "command") := by
        have h2 := List.find?_eq_none.mp hfnone e he
        simpa using h2
      have hdec : decide ("command" = e.1) = false :=
        decide_eq_false (fun h => hne h.symm)
      simp [entriesHasKey, List.find?_cons, hdec]
    rw [entriesMerge_append_of_disjoint payload [("command", Json.str command_name)] hd hnd,
      List.singleton_append]

/-- A peer whose writes always succeed. -/
def okPeer : Peer := ⟨fun _ => true⟩

/-- A peer whose writes always raise. -/
def failPeer : Peer := ⟨fun _ => false⟩

/-- Counterexample to C7's success-form clause: with an attached peer
and the extra payload `{"command": "evil"}`, the single line written
carries payload `{"command": "evil"}` — the command name "go" appears
nowhere in it, so the line is not of the claimed form
`{"command": <name>, ...extra fields...}`. -/
theorem c7_counterexample :
    (send_command { current_connection := some okPeer } "go"
      [("command", Json.str "evil")]).1 = true ∧
    (send_command { current_connection := some okPeer } "go"
      [("command", Json.str "evil")]).2.2 =
      [commandLine "go" [("command", Json.str "evil")]] ∧
    commandEnvelope "go" [("command", Json.str "evil")] =
      Json.obj [("role", Json.str "client"), ("type", Json.str "command"),
        ("payload", Json.obj [("command", Json.str "evil")])] ∧
    (entriesGet [("command", Json.str "evil")] "command" = some (Json.str "go") →
      False) := by
  refine ⟨rfl, rfl, rfl, fun h => ?_⟩
  simp [entriesGet, List.find?_cons] at h

/-- Witness for C7: the three send outcomes and the exact line at a
concrete command. -/
theorem c7_send_command_contract_witness :
    send_command { current_connection := none } "go" [] =
      (false, { current_connection := none }, []) ∧
    send_command { current_connection := some failPeer } "go" [] =
      (false, { current_connection := none }, []) ∧
    ({ current_connection := none } : PuckBridge).is_connected = false ∧
    send_command { current_connection := some okPeer } "go" [("n", Json.num 2)] =
      (true, { current_connection := some okPeer }, [commandLine "go" [("n", Json.num 2)]]) ∧
    commandLine "go" [("n", Json.num 2)] =
      "\x7b\"role\": \"client\", \"type\": \"command\", \"payload\": \x7b\"command\": \"go\", \"n\": 2\x7d\x7d\n" ∧
    commandEnvelope "go" [("n", Json.num 2)] =
      Json.obj [("role", Json.str "client"), ("type", Json.str "command"),
        ("payload", Json.obj [("command", Json.str "go"), ("n", Json.num 2)])] :=
  ⟨(c7_send_command_contract { current_connection := none } "go" []).1 rfl,
   ((c7_send_command_contract { current_connection := some failPeer } "go" []).2.1
     failPeer rfl rfl).1,
   rfl,
   (c7_send_command_contract { current_connection := some okPeer } "go"
     [("n", Json.num 2)]).2.2.1 okPeer rfl rfl,
   rfl,
   (c7_send_command_contract { current_connection := some okPeer } "go"
     [("n", Json.num 2)]).2.2.2.2 rfl (by decide)⟩

theorem pySeq_preserves {α : Type} (P : α → Prop) (r : α × Option PyErr)
    (f : α → α × Option PyErr) (h1 : P r.1) (h2 : ∀ a, P a → P (f a).1) :
    P (pySeq r f).1 := by
  rcases r with ⟨a, e⟩
  cases e
  · exact h2 a h1
  · exact h1

theorem pySeq_ok {α : Type} (r : α × Option PyErr) (f : α → α × Option PyErr)
    (h : r.2 = none) : pySeq r f = f r.1 := by
  rcases r with ⟨a, e⟩
  simp only at h
  subst h
  rfl

theorem mergeField_preserves {α : Type} (P : α → Prop) (key : String)
    (set : α → Json → α) (d : Json) (hset : ∀ a v, P a → P (set a v)) :
    ∀ a, P a → P (mergeField key set d a).1 := by
  intro a ha
  unfold mergeField
  rcases hc : pyContains d key with e | b
  · exact ha
  · cases b
    · exact ha
    · rcases hi : pyIndex d key with e | v
      · exact ha
      · exact hset a v ha

theorem mergeField_obj_cases {α : Type} (key : String) (set : α → Json → α)
    (entries : List (String × Json)) (a : α) :
    mergeField key set (.obj entries) a =
      if entriesHasKey entries key then (set a (entriesGetD entries key .null), none)
      else (a, none) := by
  unfold mergeField pyContains
  rcases h : entriesHasKey entries key with _ | _
  · simp [h]
  · simp [h, pyIndex, entriesGet_of_hasKey _ _ h]

theorem mergeField_nonobj_frame {α : Type} (key : String) (set : α → Json → α)
    (d : Json) (a : α) (hd : ∀ es, d ≠ Json.obj es) :
    (mergeField key set d a).1 = a := by
  unfold mergeField
  rcases hc : pyContains d key with e | b
  · rfl
  · cases b
    · rfl
    · rcases hi : pyIndex d key with e | v
      · rfl
      · exfalso
        cases d with
        | obj es => exact hd es rfl
        | null => simp [pyIndex] at hi
        | bool b => simp [pyIndex] at hi
        | num q => simp [pyIndex] at hi
        | str s => simp [pyIndex] at hi
        | arr xs => simp [pyIndex] at hi

theorem scoresStep_preserves (P : GameState → Prop) (data : Json)
    (hblue : ∀ g v, P g → P { g with blue_score := v })
    (hred : ∀ g v, P g → P { g with red_score := v }) :
    ∀ g, P g → P (scoresStep data g).1 := by
  intro g hg
  unfold scoresStep
  rcases hc : pyContains data "scores" with e | b
  · exact hg
  · cases b
    · exact hg
    · rcases hi : pyIndex data "scores" with e | scores
      · exact hg
      · unfold updateScoresBlock
        exact pySeq_preserves P _ _ (mergeField_preserves P _ _ _ hblue g hg)
          (fun g2 hg2 => mergeField_preserves P _ _ _ hred g2 hg2)

/-- Whether a call with this payload object writes the given nested
scores key (the key is present under an object-valued `scores`). -/
def scoresWrites (entries : List (String × Json)) (k : String) : Bool :=
  match entriesGet entries "scores" with
  | some (.obj ses) => entriesHasKey ses k
  | _ => false

/-- Whether the value at `scores` (when present) lets the scores clause
complete without raising: objects always do; strings and arrays only
when Python's `in` finds neither "blue" nor "red" (a hit is followed by
an indexing `TypeError`); other values raise at `in` itself. -/
def scoresValueOk : Option Json → Bool
  | none => true
  | some (.obj _) => true
  | some (.str s) =>
    !(decide ("blue".toList <:+: s.toList)) && !(decide ("red".toList <:+: s.toList))
  | some (.arr xs) =>
    !(xs.contains (Json.str "blue")) && !(xs.contains (Json.str "red"))
  | some _ => false

theorem entriesGet_eq_none_of_not_hasKey (es : List (String × Json)) (k : String)
    (h : entriesHasKey es k = false) : entriesGet es k = none := by
  unfold entriesHasKey at h
  unfold entriesGet
  rcases hf : es.find? (fun e => e.1 = k) with _ | e
  · rw [hf]
    rfl
  · rw [hf] at h
    simp at h

theorem updateScoresBlock_frame_nonobj (scores : Json) (g : GameState)
    (hd : ∀ ses, scores ≠ Json.obj ses) :
    (updateScoresBlock scores g).1 = g := by
  unfold updateScoresBlock
  refine pySeq_preserves (fun x => x = g) _ _ ?_ ?_
  · exact mergeField_nonobj_frame _ _ _ _ hd
  · intro a haeq
    rw [← haeq]
    exact mergeField_nonobj_frame _ _ _ _ hd

theorem updateScoresBlock_blue_frame (scores : Json) (g : GameState)
    (habs : ∀ ses, scores = Json.obj ses → entriesHasKey ses "blue" = false) :
    (updateScoresBlock scores g).1.blue_score = g.blue_score := by
  rcases scores with _ | b | q | s | xs | ses
  case obj =>
    unfold updateScoresBlock
    refine pySeq_preserves (fun x : GameState => x.blue_score = g.blue_score) _ _ ?_
      (fun g2 h2 => mergeField_preserves (fun x : GameState => x.blue_score = g.blue_score)
        "red" (fun g v => { g with red_score := v }) (Json.obj ses) (fun _ _ hh => hh) g2 h2)
    rw [mergeField_obj_cases, habs ses rfl]
    simp
  all_goals
    exact congrArg GameState.blue_score
      (updateScoresBlock_frame_nonobj _ g (fun ses h => Json.noConfusion h))

theorem updateScoresBlock_red_frame (scores : Json) (g : GameState)
    (habs : ∀ ses, scores = Json.obj ses → entriesHasKey ses "red" = false) :
    (updateScoresBlock scores g).1.red_score = g.red_score := by
  rcases scores with _ | b | q | s | xs | ses
  case obj =>
    unfold updateScoresBlock
    refine pySeq_preserves (fun x : GameState => x.red_score = g.red_score) _ _
      (mergeField_preserves (fun x : GameState => x.red_score = g.red_score)
        "blue" (fun g v => { g with blue_score := v }) (Json.obj ses) (fun _ _ hh => hh) g rfl)
      (fun g2 h2 => ?_)
    rw [mergeField_obj_cases, habs ses rfl]
    simpa using h2
  all_goals
    exact congrArg GameState.red_score
      (updateScoresBlock_frame_nonobj _ g (fun ses h => Json.noConfusion h))

theorem pyIndex_obj_get (entries : List (String × Json)) (k : String) (v : Json)
    (h : pyIndex (.obj entries) k = .ok v) : entriesGet entries k = some v := by
  rw [show pyIndex (.obj entries) k =
    (match entriesGet entries k with
     | some x => Except.ok x
     | none => Except.error PyErr.keyError) from rfl] at h
  rcases hg : entriesGet entries k with _ | x <;> rw [hg] at h
  · cases h
  · cases h
    rfl

theorem scoresStep_blue_frame (entries : List (String × Json)) (g : GameState)
    (habs : scoresWrites entries "blue" = false) :
    (scoresStep (.obj entries) g).1.blue_score = g.blue_score := by
  unfold scoresStep
  rcases hc : pyContains (.obj entries) "scores" with e | b
  · rfl
  · cases b
    · rfl
    · rcases hi : pyIndex (.obj entries) "scores" with e | scores
      · rfl
      · have hget := pyIndex_obj_get _ _ _ hi
        apply updateScoresBlock_blue_frame
        intro ses hses
        unfold scoresWrites at habs
        rw [hget, hses] at habs
        exact habs

theorem scoresStep_red_frame (entries : List (String × Json)) (g : GameState)
    (habs : scoresWrites entries "red" = false) :
    (scoresStep (.obj entries) g).1.red_score = g.red_score := by
  unfold scoresStep
  rcases hc : pyContains (.obj entries) "scores" with e | b
  · rfl
  · cases b
    · rfl
    · rcases hi : pyIndex (.obj entries) "scores" with e | scores
      · rfl
      · have hget := pyIndex_obj_get _ _ _ hi
        apply updateScoresBlock_red_frame
        intro ses hses
        unfold scoresWrites at habs
        rw [hget, hses] at habs
        exact habs

theorem updateScoresBlock_err (scores : Json) (g : GameState) :
    ((updateScoresBlock scores g).2 = none) ↔ scoresValueOk (some scores) = true := by
  unfold updateScoresBlock
  rcases scores with _ | b | q | s | xs | ses
  · simp [mergeField, pyContains, pySeq, scoresValueOk]
  · simp [mergeField, pyContains, pySeq, scoresValueOk]
  · simp [mergeField, pyContains, pySeq, scoresValueOk]
  · unfold scoresValueOk
    by_cases hb : (['b', 'l', 'u', 'e'] <:+: s.data)
    · simp [mergeField, pyContains, pySeq, pyIndex, hb]
    · by_cases hr : (['r', 'e', 'd'] <:+: s.data)
      · simp [mergeField, pyContains, pySeq, pyIndex, hb, hr]
      · simp [mergeField, pyContains, pySeq, pyIndex, hb, hr]
  · unfold scoresValueOk
    rcases hb : xs.contains (Json.str "blue") with _ | _
    · rcases hr : xs.contains (Json.str "red") with _ | _
      · simp [mergeField, pyContains, pySeq, pyIndex, hb, hr]
      · simp [mergeField, pyContains, pySeq, pyIndex, hb, hr]
    · simp [mergeField, pyContains, pySeq, pyIndex, hb]
  · rw [pySeq_ok _ _ (mergeField_obj_err _ _ _ _)]
    simp [mergeField_obj_err, scoresValueOk]

theorem scoresStep_err_obj (entries : List (String × Json)) (g : GameState) :
    ((scoresStep (.obj entries) g).2 = none) ↔
      scoresValueOk (entriesGet entries "scores") = true := by
  unfold scoresStep
  rw [show pyContains (.obj entries) "scores" = .ok (entriesHasKey entries "scores") from rfl]
  rcases hk : entriesHasKey entries "scores" with _ | _
  · rw [entriesGet_eq_none_of_not_hasKey _ _ hk]
    simp [scoresValueOk]
  · rw [show pyIndex (.obj entries) "scores" =
      (match entriesGet entries "scores" with
       | some x => Except.ok x
       | none => Except.error PyErr.keyError) from rfl]
    rw [entriesGet_of_hasKey _ _ hk]
    exact updateScoresBlock_err _ g

theorem gameStateMergeChain_err_obj (entries : List (String × Json)) (g : GameState) :
    ((gameStateMergeChain (.obj entries) g).2 = none) ↔
      scoresValueOk (entriesGet entries "scores") = true := by
  unfold gameStateMergeChain
  rw [pySeq_ok _ _ (mergeField_obj_err _ _ _ _),
    pySeq_ok _ _ (mergeField_obj_err _ _ _ _),
    pySeq_ok _ _ (mergeField_obj_err _ _ _ _)]
  exact scoresStep_err_obj entries _

theorem gameStateMergeChain_preserves (P : GameState → Prop) (data : Json)
    (g : GameState)
    (hphase : ∀ g v, P g → P { g with phase := v })
    (htime : ∀ g v, P g → P { g with time := v })
    (hperiod : ∀ g v, P g → P { g with period := v })
    (hblue : ∀ g v, P g → P { g with blue_score := v })
    (hred : ∀ g v, P g → P { g with red_score := v })
    (hg : P g) : P (gameStateMergeChain data g).1 := by
  unfold gameStateMergeChain
  refine pySeq_preserves P _ _
    (mergeField_preserves P "phase" (fun g v => { g with phase := v }) data hphase g hg)
    (fun g1 h1 => ?_)
  refine pySeq_preserves P _ _
    (mergeField_preserves P "time" (fun g v => { g with time := v }) data htime g1 h1)
    (fun g2 h2 => ?_)
  refine pySeq_preserves P _ _
    (mergeField_preserves P "period" (fun g v => { g with period := v }) data hperiod g2 h2)
    (fun g3 h3 => ?_)
  exact scoresStep_preserves P data hblue hred g3 h3

theorem gameStateMergeChain_phase_frame (entries : List (String × Json)) (g : GameState)
    (h : entriesHasKey entries "phase" = false) :
    (gameStateMergeChain (.obj entries) g).1.phase = g.phase := by
  unfold gameStateMergeChain
  refine pySeq_preserves (fun x : GameState => x.phase = g.phase) _ _ ?_ (fun g1 h1 => ?_)
  · rw [mergeField_obj_cases, h]
    simp
  · refine pySeq_preserves (fun x : GameState => x.phase = g.phase) _ _
      (mergeField_preserves (fun x : GameState => x.phase = g.phase)
        "time" (fun g v => { g with time := v }) (Json.obj entries) (fun _ _ hh => hh) g1 h1)
      (fun g2 h2 => ?_)
    refine pySeq_preserves (fun x : GameState => x.phase = g.phase) _ _
      (mergeField_preserves (fun x : GameState => x.phase = g.phase)
        "period" (fun g v => { g with period := v }) (Json.obj entries) (fun _ _ hh => hh) g2 h2)
      (fun g3 h3 => ?_)
    exact scoresStep_preserves (fun x : GameState => x.phase = g.phase)
      (Json.obj entries) (fun _ _ hh => hh) (fun _ _ hh => hh) g3 h3

theorem gameStateMergeChain_time_frame (entries : List (String × Json)) (g : GameState)
    (h : entriesHasKey entries "time" = false) :
    (gameStateMergeChain (.obj entries) g).1.time = g.time := by
  unfold gameStateMergeChain
  refine pySeq_preserves (fun x : GameState => x.time = g.time) _ _
    (mergeField_preserves (fun x : GameState => x.time = g.time)
      "phase" (fun g v => { g with phase := v }) (Json.obj entries) (fun _ _ hh => hh) g rfl)
    (fun g1 h1 => ?_)
  refine pySeq_preserves (fun x : GameState => x.time = g.time) _ _ ?_ (fun g2 h2 => ?_)
  · rw [mergeField_obj_cases, h]
    simpa using h1
  · refine pySeq_preserves (fun x : GameState => x.time = g.time) _ _
      (mergeField_preserves (fun x : GameState => x.time = g.time)
        "period" (fun g v => { g with period := v }) (Json.obj entries) (fun _ _ hh => hh) g2 h2)
      (fun g3 h3 => ?_)
    exact scoresStep_preserves (fun x : GameState => x.time = g.time)
      (Json.obj entries) (fun _ _ hh => hh) (fun _ _ hh => hh) g3 h3

theorem gameStateMergeChain_period_frame (entries : List (String × Json)) (g : GameState)
    (h : entriesHasKey entries "period" = false) :
    (gameStateMergeChain (.obj entries) g).1.period = g.period := by
  unfold gameStateMergeChain
  refine pySeq_preserves (fun x : GameState => x.period = g.period) _ _
    (mergeField_preserves (fun x : GameState => x.period = g.period)
      "phase" (fun g v => { g with phase := v }) (Json.obj entries) (fun _ _ hh => hh) g rfl)
    (fun g1 h1 => ?_)
  refine pySeq_preserves (fun x : GameState => x.period = g.period) _ _
    (mergeField_preserves (fun x : GameState => x.period = g.period)
      "time" (fun g v => { g with time := v }) (Json.obj entries) (fun _ _ hh => hh) g1 h1)
    (fun g2 h2 => ?_)
  refine pySeq_preserves (fun x : GameState => x.period = g.period) _ _ ?_ (fun g3 h3 => ?_)
  · rw [mergeField_obj_cases, h]
    simpa using h2
  · exact scoresStep_preserves (fun x : GameState => x.period = g.period)
      (Json.obj entries) (fun _ _ hh => hh) (fun _ _ hh => hh) g3 h3

theorem gameStateMergeChain_blue_frame (entries : List (String × Json)) (g : GameState)
    (h : scoresWrites entries "blue" = false) :
    (gameStateMergeChain (.obj entries) g).1.blue_score = g.blue_score := by
  unfold gameStateMergeChain
  refine pySeq_preserves (fun x : GameState => x.blue_score = g.blue_score) _ _
    (mergeField_preserves (fun x : GameState => x.blue_score = g.blue_score)
      "phase" (fun g v => { g with phase := v }) (Json.obj entries) (fun _ _ hh => hh) g rfl)
    (fun g1 h1 => ?_)
  refine pySeq_preserves (fun x : GameState => x.blue_score = g.blue_score) _ _
    (mergeField_preserves (fun x : GameState => x.blue_score = g.blue_score)
      "time" (fun g v => { g with time := v }) (Json.obj entries) (fun _ _ hh => hh) g1 h1)
    (fun g2 h2 => ?_)
  refine pySeq_preserves (fun x : GameState => x.blue_score = g.blue_score) _ _
    (mergeField_preserves (fun x : GameState => x.blue_score = g.blue_score)
      "period" (fun g v => { g with period := v }) (Json.obj entries) (fun _ _ hh => hh) g2 h2)
    (fun g3 h3 => ?_)
  exact (scoresStep_blue_frame entries g3 h).trans h3

theorem gameStateMergeChain_red_frame (entries : List (String × Json)) (g : GameState)
    (h : scoresWrites entries "red" = false) :
    (gameStateMergeChain (.obj entries) g).1.red_score = g.red_score := by
  unfold gameStateMergeChain
  refine pySeq_preserves (fun x : GameState => x.red_score = g.red_score) _ _
    (mergeField_preserves (fun x : GameState => x.red_score = g.red_score)
      "phase" (fun g v => { g with phase := v }) (Json.obj entries) (fun _ _ hh => hh) g rfl)
    (fun g1 h1 => ?_)
  refine pySeq_preserves (fun x : GameState => x.red_score = g.red_score) _ _
    (mergeField_preserves (fun x : GameState => x.red_score = g.red_score)
      "time" (fun g v => { g with time := v }) (Json.obj entries) (fun _ _ hh => hh) g1 h1)
    (fun g2 h2 => ?_)
  refine pySeq_preserves (fun x : GameState => x.red_score = g.red_score) _ _
    (mergeField_preserves (fun x : GameState => x.red_score = g.red_score)
      "period" (fun g v => { g with period := v }) (Json.obj entries) (fun _ _ hh => hh) g2 h2)
    (fun g3 h3 => ?_)
  exact (scoresStep_red_frame entries g3 h).trans h3

theorem gameStateMergeChain_lu_frame (data : Json) (g : GameState) :
    (gameStateMergeChain data g).1.last_updated = g.last_updated :=
  gameStateMergeChain_preserves (fun x : GameState => x.last_updated = g.last_updated)
    data g (fun _ _ hh => hh) (fun _ _ hh => hh) (fun _ _ hh => hh)
    (fun _ _ hh => hh) (fun _ _ hh => hh) rfl

theorem gameStateMergeChain_all_absent (entries : List (String × Json)) (g : GameState)
    (hp : entriesHasKey entries "phase" = false)
    (ht : entriesHasKey entries "time" = false)
    (hpe : entriesHasKey entries "period" = false)
    (hs : entriesHasKey entries "scores" = false) :
    gameStateMergeChain (.obj entries) g = (g, none) := by
  unfold gameStateMergeChain
  rw [mergeField_obj_cases, hp]
  simp only [Bool.false_eq_true, if_false]
  rw [pySeq_ok _ _ rfl]
  rw [mergeField_obj_cases, ht]
  simp only [Bool.false_eq_true, if_false]
  rw [pySeq_ok _ _ rfl]
  rw [mergeField_obj_cases, hpe]
  simp only [Bool.false_eq_true, if_false]
  rw [pySeq_ok _ _ rfl]
  unfold scoresStep
  rw [show pyContains (.obj entries) "scores" =
    .ok (entriesHasKey entries "scores") from rfl, hs]

theorem update_game_state_cases (now : ℤ) (data : Json) (m : GameStateManager) :
    (update_game_state now data m =
       ({ m with game_state :=
           { (gameStateMergeChain data m.game_state).1 with last_updated := now } }, none)
     ∧ (gameStateMergeChain data m.game_state).2 = none) ∨
    (update_game_state now data m =
       ({ m with game_state := (gameStateMergeChain data m.game_state).1 },
        (gameStateMergeChain data m.game_state).2)
     ∧ (gameStateMergeChain data m.game_state).2 ≠ none) := by
  have hu : update_game_state now data m =
      (match (gameStateMergeChain data m.game_state).2 with
       | some e => ({ m with game_state := (gameStateMergeChain data m.game_state).1 }, some e)
       | none => ({ m with game_state :=
           { (gameStateMergeChain data m.game_state).1 with last_updated := now } },
          none)) := rfl
  rcases hr : (gameStateMergeChain data m.game_state).2 with _ | e
  · left
    constructor
    · rw [hu, hr]
    · rfl
  · right
    constructor
    · rw [hu, hr]
    · simp [hr]

/-- C4 (amended): for a call of `update_game_state` with an object
payload, each of the five tracked fields whose key ("phase", "time",
"period", or nested "blue"/"red" under an object-valued "scores") is
absent retains its prior value; the call raises no error iff the
"scores" value (when present) is benign (`scoresValueOk`); the
last-update tick is refreshed exactly when no error is raised, and is
left unchanged when the scores clause raises; with none of the four
top-level keys present the call only refreshes the tick. -/
theorem c4_partial_merge (now : ℤ) (entries : List (String × Json)) (m : GameStateManager) :
    (entriesHasKey entries "phase" = false →
      (update_game_state now (.obj entries) m).1.game_state.phase = m.game_state.phase) ∧
    (entriesHasKey entries "time" = false →
      (update_game_state now (.obj entries) m).1.game_state.time = m.game_state.time) ∧
    (entriesHasKey entries "period" = false →
      (update_game_state now (.obj entries) m).1.game_state.period = m.game_state.period) ∧
    (scoresWrites entries "blue" = false →
      (update_game_state now (.obj entries) m).1.game_state.blue_score =
        m.game_state.blue_score) ∧
    (scoresWrites entries "red" = false →
      (update_game_state now (.obj entries) m).1.game_state.red_score =
        m.game_state.red_score) ∧
    ((update_game_state now (.obj entries) m).2 = none ↔
      scoresValueOk (entriesGet entries "scores") = true) ∧
    ((update_game_state now (.obj entries) m).2 = none →
      (update_game_state now (.obj entries) m).1.game_state.last_updated = now) ∧
    ((update_game_state now (.obj entries) m).2 ≠ none →
      (update_game_state now (.obj entries) m).1.game_state.last_updated =
        m.game_state.last_updated) ∧
    (entriesHasKey entries "phase" = false → entriesHasKey entries "time" = false →
      entriesHasKey entries "period" = false → entriesHasKey entries "scores" = false →
      update_game_state now (.obj entries) m =
        ({ m with game_state := { m.game_state with last_updated := now } }, none)) := by
  rcases update_game_state_cases now (.obj entries) m with ⟨hu, hr⟩ | ⟨hu, hr⟩
  · refine ⟨?_, ?_, ?_, ?_, ?_, ?_, ?_, ?_, ?_⟩
    · intro h
      rw [hu]
      exact gameStateMergeChain_phase_frame entries m.game_state h
    · intro h
      rw [hu]
      exact gameStateMergeChain_time_frame entries m.game_state h
    · intro h
      rw [hu]
      exact gameStateMergeChain_period_frame entries m.game_state h
    · intro h
      rw [hu]
      exact gameStateMergeChain_blue_frame entries m.game_state h
    · intro h
      rw [hu]
      exact gameStateMergeChain_red_frame entries m.game_state h
    · rw [hu]
      exact iff_of_true rfl ((gameStateMergeChain_err_obj entries m.game_state).mp hr)
    · intro _
      rw [hu]
    · intro hne
      exact absurd (by rw [hu]) hne
    · intro h1 h2 h3 h4
      rw [hu, gameStateMergeChain_all_absent entries m.game_state h1 h2 h3 h4]
  · refine ⟨?_, ?_, ?_, ?_, ?_, ?_, ?_, ?_, ?_⟩
    · intro h
      rw [hu]
      exact gameStateMergeChain_phase_frame entries m.game_state h
    · intro h
      rw [hu]
      exact gameStateMergeChain_time_frame entries m.game_state h
    · intro h
      rw [hu]
      exact gameStateMergeChain_period_frame entries m.game_state h
    · intro h
      rw [hu]
      exact gameStateMergeChain_blue_frame entries m.game_state h
    · intro h
      rw [hu]
      exact gameStateMergeChain_red_frame entries m.game_state h
    · rw [hu]
      exact gameStateMergeChain_err_obj entries m.game_state
    · intro h
      rw [hu] at h
      exact absurd h hr
    · intro _
      rw [hu]
      exact gameStateMergeChain_lu_frame _ _
    · intro h1 h2 h3 h4
      exact absurd
        (by rw [gameStateMergeChain_all_absent entries m.game_state h1 h2 h3 h4]) hr

theorem c4_partial_merge_witness :
    entriesHasKey [("phase", Json.str "live")] "period" = false ∧
    (update_game_state 9 (.obj [("phase", Json.str "live")])
        (GameStateManager.init 0)).1.game_state.period =
      (GameStateManager.init 0).game_state.period ∧
    (update_game_state 9 (.obj [("phase", Json.str "live")])
        (GameStateManager.init 0)).2 = none ∧
    (update_game_state 9 (.obj [("phase", Json.str "live")])
        (GameStateManager.init 0)).1.game_state.last_updated = 9 := by
  have h := c4_partial_merge 9 [("phase", Json.str "live")] (GameStateManager.init 0)
  have herr : (update_game_state 9 (.obj [("phase", Json.str "live")])
      (GameStateManager.init 0)).2 = none := h.2.2.2.2.2.1.mpr (by decide)
  exact ⟨by decide, h.2.2.1 (by decide), herr, h.2.2.2.2.2.2.1 herr⟩

/-- C4 counterexample: the spec says a game-state delta has no error
conditions and always refreshes the last-update timestamp, but the
payload `\x7b"scores": 5\x7d` makes `"blue" in scores` raise
`TypeError` (int is not a container), and the timestamp is then not
refreshed: it stays at its initial value 0 instead of the call tick 5. -/
theorem c4_counterexample :
    (update_game_state 5 (.obj [("scores", Json.num 5)]) (GameStateManager.init 0)).2 =
      some PyErr.typeError ∧
    (update_game_state 5 (.obj [("scores", Json.num 5)])
        (GameStateManager.init 0)).1.game_state.last_updated = 0 ∧
    (0 : ℤ) ≠ 5 := by
  refine ⟨rfl, rfl, by decide⟩

/-- Python-side test "this value is a non-negative integer score"
(`int`-valued and `>= 0`). -/
def jsonIsNNInt : Json → Bool
  | .num q => decide (0 ≤ q) && decide (q.den = 1)
  | _ => false

/-- The value a scores container would write at key `k`, when it is an
object holding `k`, is a non-negative integer; vacuous otherwise. -/
def scoresObjOk (scores : Json) (k : String) : Bool :=
  match scores with
  | .obj ses =>
    match entriesGet ses k with
    | some v => jsonIsNNInt v
    | none => true
  | _ => true

/-- The payload's "scores" sub-object (defaulting to an empty dict)
writes only non-negative integers at "blue" and "red". -/
def dataScoresOk : Json → Bool
  | .obj entries =>
    scoresObjOk (entriesGetD entries "scores" (.obj [])) "blue" &&
    scoresObjOk (entriesGetD entries "scores" (.obj [])) "red"
  | _ => true

/-- The side condition under which an operation keeps scores
non-negative integers: only game-state deltas and goal payloads can
write scores. -/
def opScoresOk : StoreOp → Bool
  | .updGameState d => dataScoresOk d
  | .goalScored d => dataScoresOk d
  | _ => true

/-- The claimed invariant: both stored scores are non-negative
integers. -/
def scoresNN (m : GameStateManager) : Prop :=
  jsonIsNNInt m.game_state.blue_score = true ∧ jsonIsNNInt m.game_state.red_score = true

theorem mergeField_set_value {α : Type} (P : α → Prop) (key : String)
    (set : α → Json → α) (d : Json) (a : α) (ha : P a)
    (h : ∀ ses v, d = .obj ses → entriesGet ses key = some v → P (set a v)) :
    P (mergeField key set d a).1 := by
  rcases hd : d with _ | b | q | s | xs | ses
  case obj =>
    rw [mergeField_obj_cases]
    rcases hk : entriesHasKey ses key with _ | _
    · simpa using ha
    · simpa using h ses _ hd (entriesGet_of_hasKey _ _ hk)
  all_goals rw [mergeField_nonobj_frame _ _ _ _ (fun es he => Json.noConfusion he)]
  all_goals exact ha

theorem updateScoresBlock_NN (scores : Json) (g : GameState)
    (hb : scoresObjOk scores "blue" = true) (hr : scoresObjOk scores "red" = true)
    (hgb : jsonIsNNInt g.blue_score = true) (hgr : jsonIsNNInt g.red_score = true) :
    jsonIsNNInt (updateScoresBlock scores g).1.blue_score = true ∧
    jsonIsNNInt (updateScoresBlock scores g).1.red_score = true := by
  unfold updateScoresBlock
  refine pySeq_preserves
    (fun x : GameState => jsonIsNNInt x.blue_score = true ∧ jsonIsNNInt x.red_score = true)
    _ _ ?_ ?_
  · refine mergeField_set_value
      (fun x : GameState => jsonIsNNInt x.blue_score = true ∧ jsonIsNNInt x.red_score = true)
      "blue" (fun g v => { g with blue_score := v }) scores g ⟨hgb, hgr⟩ ?_
    intro ses v hses hget
    refine ⟨?_, hgr⟩
    rw [hses] at hb
    rw [show scoresObjOk (.obj ses) "blue" =
      (match entriesGet ses "blue" with
       | some v => jsonIsNNInt v
       | none => true) from rfl, hget] at hb
    exact hb
  · intro a ha
    refine mergeField_set_value
      (fun x : GameState => jsonIsNNInt x.blue_score = true ∧ jsonIsNNInt x.red_score = true)
      "red" (fun g v => { g with red_score := v }) scores a ha ?_
    intro ses v hses hget
    refine ⟨ha.1, ?_⟩
    rw [hses] at hr
    rw [show scoresObjOk (.obj ses) "red" =
      (match entriesGet ses "red" with
       | some v => jsonIsNNInt v
       | none => true) from rfl, hget] at hr
    exact hr

theorem entriesGetD_congr (es : List (String × Json)) (k : String) (d d' : Json)
    (h : entriesHasKey es k = true) : entriesGetD es k d = entriesGetD es k d' := by
  unfold entriesHasKey at h
  unfold entriesGetD entriesGet
  rcases hf : es.find? (fun e => e.1 = k) with _ | e
  · rw [hf] at h
    simp at h
  · rw [hf]
    rfl

theorem scoresStep_NN (entries : List (String × Json)) (g : GameState)
    (hb : scoresObjOk (entriesGetD entries "scores" (.obj [])) "blue" = true)
    (hr : scoresObjOk (entriesGetD entries "scores" (.obj [])) "red" = true)
    (hgb : jsonIsNNInt g.blue_score = true) (hgr : jsonIsNNInt g.red_score = true) :
    jsonIsNNInt (scoresStep (.obj entries) g).1.blue_score = true ∧
    jsonIsNNInt (scoresStep (.obj entries) g).1.red_score = true := by
  unfold scoresStep
  rw [show pyContains (.obj entries) "scores" = .ok (entriesHasKey entries "scores") from rfl]
  rcases hk : entriesHasKey entries "scores" with _ | _
  · exact ⟨hgb, hgr⟩
  · rw [show pyIndex (.obj entries) "scores" =
      (match entriesGet entries "scores" with
       | some x => Except.ok x
       | none => Except.error PyErr.keyError) from rfl, entriesGet_of_hasKey _ _ hk]
    have hd : entriesGetD entries "scores" (.obj []) = entriesGetD entries "scores" .null :=
      entriesGetD_congr entries "scores" _ _ hk
    rw [hd] at hb hr
    exact updateScoresBlock_NN _ g hb hr hgb hgr

theorem pyIndex_nonobj (d : Json) (k : String) (hd : ∀ es, d ≠ Json.obj es) :
    pyIndex d k = .error .typeError := by
  rcases d with _ | b | q | s | xs | ses
  case obj => exact absurd rfl (hd ses)
  all_goals rfl

theorem scoresStep_nonobj_frame (d : Json) (g : GameState)
    (hd : ∀ es, d ≠ Json.obj es) : (scoresStep d g).1 = g := by
  unfold scoresStep
  rw [pyIndex_nonobj d "scores" hd]
  rcases hc : pyContains d "scores" with e | b
  · rfl
  · cases b
    · rfl
    · rfl

theorem gameStateMergeChain_NN (data : Json) (g : GameState)
    (hok : dataScoresOk data = true)
    (hgb : jsonIsNNInt g.blue_score = true) (hgr : jsonIsNNInt g.red_score = true) :
    jsonIsNNInt (gameStateMergeChain data g).1.blue_score = true ∧
    jsonIsNNInt (gameStateMergeChain data g).1.red_score = true := by
  unfold gameStateMergeChain
  refine pySeq_preserves
    (fun x : GameState => jsonIsNNInt x.blue_score = true ∧ jsonIsNNInt x.red_score = true)
    _ _
    (mergeField_preserves
      (fun x : GameState => jsonIsNNInt x.blue_score = true ∧ jsonIsNNInt x.red_score = true)
      "phase" (fun g v => { g with phase := v }) data (fun _ _ hh => hh) g ⟨hgb, hgr⟩)
    (fun g1 h1 => ?_)
  refine pySeq_preserves
    (fun x : GameState => jsonIsNNInt x.blue_score = true ∧ jsonIsNNInt x.red_score = true)
    _ _
    (mergeField_preserves
      (fun x : GameState => jsonIsNNInt x.blue_score = true ∧ jsonIsNNInt x.red_score = true)
      "time" (fun g v => { g with time := v }) data (fun _ _ hh => hh) g1 h1)
    (fun g2 h2 => ?_)
  refine pySeq_preserves
    (fun x : GameState => jsonIsNNInt x.blue_score = true ∧ jsonIsNNInt x.red_score = true)
    _ _
    (mergeField_preserves
      (fun x : GameState => jsonIsNNInt x.blue_score = true ∧ jsonIsNNInt x.red_score = true)
      "period" (fun g v => { g with period := v }) data (fun _ _ hh => hh) g2 h2)
    (fun g3 h3 => ?_)
  rcases hdd : data with _ | b | q | s | xs | entries
  case obj =>
    rw [hdd] at hok
    unfold dataScoresOk at hok
    simp only [Bool.and_eq_true] at hok
    exact scoresStep_NN entries g3 hok.1 hok.2 h3.1 h3.2
  all_goals rw [scoresStep_nonobj_frame _ g3 (fun es he => Json.noConfusion he)]
  all_goals exact h3

theorem update_game_state_NN (now : ℤ) (data : Json) (m : GameStateManager)
    (hok : dataScoresOk data = true) (h : scoresNN m) :
    scoresNN (update_game_state now data m).1 := by
  rcases update_game_state_cases now data m with ⟨hu, _⟩ | ⟨hu, _⟩ <;> rw [hu] <;>
    exact gameStateMergeChain_NN data m.game_state hok h.1 h.2

theorem update_player_gs_frame (now : ℤ) (cid pd : Json) (m : GameStateManager) :
    (update_player now cid pd m).1.game_state = m.game_state := by
  unfold update_player
  rcases hk : playersHasKey m.players cid with e | present
  · rfl
  · rcases hg : playersGet (if present = true then m.players
        else playersInsert m.players cid (Player.fresh cid now)) cid with _ | p
    · simp [hg]
    · rcases hr : (mergePlayerData pd p).2 with _ | e
      · simp [hg, hr]
      · simp [hg, hr]

theorem remove_player_gs_frame (cid : Json) (m : GameStateManager) :
    (remove_player cid m).1.game_state = m.game_state := by
  unfold remove_player
  split <;> rfl

theorem update_performance_gs_frame (now : ℤ) (d : Json) (m : GameStateManager) :
    (update_performance now d m).1.game_state = m.game_state := by
  unfold update_performance
  rcases hc : pyContains d "fps" with e | b
  · rfl
  · cases b
    · rfl
    · rcases hi : pyIndex d "fps" with e | fps
      · simp [hi]
      · rcases hr : (pySeq (mergeField "current"
            (fun p v => { p with current_fps := v }) fps m.performance)
            (fun p => pySeq (mergeField "min" (fun p v => { p with min_fps := v }) fps p)
              (fun p => pySeq (mergeField "average"
                  (fun p v => { p with average_fps := v }) fps p)
                (fun p => mergeField "max"
                  (fun p v => { p with max_fps := v }) fps p)))).2 with _ | e
        · simp [hr]
        · simp [hr]

theorem goalScored_NN (now : ℤ) (d : Json) (m : GameStateManager)
    (hok : dataScoresOk d = true) (h : scoresNN m) :
    scoresNN (_handle_goal_scored now d m).1 := by
  rcases hd : d with _ | b | q | s | xs | entries
  case obj =>
    rw [hd] at hok
    show scoresNN
      ((match pyGetD (entriesGetD entries "players" (.obj [])) "goal" Json.null with
        | .error e => (m, some e)
        | .ok goal_player =>
          match (if jsonTruthy goal_player then pyGetD goal_player "username" (.str "unknown")
                 else .ok (.str "unknown")) with
          | .error e => (m, some e)
          | .ok _ =>
            match pyGetD (entriesGetD entries "scores" (.obj [])) "blue" (.num 0) with
            | .error e => (m, some e)
            | .ok _ =>
              match pyGetD (entriesGetD entries "scores" (.obj [])) "red" (.num 0) with
              | .error e => (m, some e)
              | .ok _ =>
                match (if jsonTruthy (entriesGetD entries "scores" (.obj [])) then
                    update_game_state now
                      (.obj [("scores", entriesGetD entries "scores" (.obj []))]) m
                  else (m, none)).2 with
                | some e =>
                  ((if jsonTruthy (entriesGetD entries "scores" (.obj [])) then
                      update_game_state now
                        (.obj [("scores", entriesGetD entries "scores" (.obj []))]) m
                    else (m, none)).1, some e)
                | none =>
                  (set_last_goal_data (.obj entries)
                    (if jsonTruthy (entriesGetD entries "scores" (.obj [])) then
                        update_game_state now
                          (.obj [("scores", entriesGetD entries "scores" (.obj []))]) m
                      else (m, none)).1, none)).1)
    have hr : scoresNN
        ((if jsonTruthy (entriesGetD entries "scores" (.obj [])) then
            update_game_state now
              (.obj [("scores", entriesGetD entries "scores" (.obj []))]) m
          else (m, none)).1) := by
      by_cases ht : jsonTruthy (entriesGetD entries "scores" (.obj [])) = true
      · simp only [ht, if_true]
        refine update_game_state_NN now _ m ?_ h
        rw [show dataScoresOk
          (.obj [("scores", entriesGetD entries "scores" (.obj []))]) =
          dataScoresOk (.obj entries) from rfl]
        exact hok
      · simp only [Bool.not_eq_true] at ht
        simp only [ht, Bool.false_eq_true, if_false]
        exact h
    rcases h1 : pyGetD (entriesGetD entries "players" (.obj [])) "goal" Json.null with e | gp
    · exact h
    · dsimp only
      rcases h2 : (if jsonTruthy gp = true then pyGetD gp "username" (Json.str "unknown")
          else Except.ok (Json.str "unknown")) with e | u
      · exact h
      · dsimp only
        rcases h3 : pyGetD (entriesGetD entries "scores" (.obj [])) "blue" (Json.num 0)
            with e | x3
        · exact h
        · dsimp only
          rcases h4 : pyGetD (entriesGetD entries "scores" (.obj [])) "red" (Json.num 0)
              with e | x4
          · exact h
          · dsimp only
            rcases h5 : (if jsonTruthy (entriesGetD entries "scores" (.obj [])) = true then
                update_game_state now
                  (.obj [("scores", entriesGetD entries "scores" (.obj []))]) m
              else (m, none)).2 with _ | e
            · exact hr
            · exact hr
  all_goals exact h

theorem opApply_NN (now : ℤ) (op : StoreOp) (m : GameStateManager)
    (hok : opScoresOk op = true) (h : scoresNN m) :
    scoresNN (StoreOp.apply now op m).1 := by
  cases op with
  | updGameState d => exact update_game_state_NN now d m hok h
  | updPlayer cid pd =>
    show scoresNN (update_player now cid pd m).1
    unfold scoresNN
    rw [update_player_gs_frame]
    exact h
  | rmPlayer cid =>
    show scoresNN (remove_player cid m).1
    unfold scoresNN
    rw [remove_player_gs_frame]
    exact h
  | updPerformance d =>
    show scoresNN (update_performance now d m).1
    unfold scoresNN
    rw [update_performance_gs_frame]
    exact h
  | goalScored d => exact goalScored_NN now d m hok h
  | setLastGoal d => exact h

theorem runOps_NN (ops : List (ℤ × StoreOp)) :
    ∀ m : GameStateManager, (∀ p ∈ ops, opScoresOk p.2 = true) → scoresNN m →
      scoresNN (runOps ops m) := by
  induction ops with
  | nil => exact fun m _ hm => hm
  | cons p rest ih =>
    intro m hok hm
    exact ih (StoreOp.apply p.1 p.2 m).1
      (fun q hq => hok q (List.mem_cons_of_mem p hq))
      (opApply_NN p.1 p.2 m (hok p (List.mem_cons_self p rest)) hm)

/-- C5 (amended): along any operation sequence from the initial store
in which every game-state delta and goal payload writes only
non-negative integers at scores.blue / scores.red, both stored scores
remain non-negative integers. (Unconditionally the claim is false: the
store trusts the peer and performs no validation, see the
counterexample.) -/
theorem c5_scores_invariant (t0 : ℤ) (ops : List (ℤ × StoreOp))
    (hok : ∀ p ∈ ops, opScoresOk p.2 = true) :
    jsonIsNNInt (runOps ops (GameStateManager.init t0)).game_state.blue_score = true ∧
    jsonIsNNInt (runOps ops (GameStateManager.init t0)).game_state.red_score = true :=
  runOps_NN ops (GameStateManager.init t0) hok ⟨rfl, rfl⟩

theorem c5_scores_invariant_witness :
    (∀ p ∈ [((3:ℤ), StoreOp.updGameState (.obj [("scores",
        .obj [("blue", Json.num (mkRat 2 1))])]))], opScoresOk p.2 = true) ∧
    jsonIsNNInt (runOps [((3:ℤ), StoreOp.updGameState (.obj [("scores",
        .obj [("blue", Json.num (mkRat 2 1))])]))]
      (GameStateManager.init 0)).game_state.blue_score = true :=
  ⟨by decide, (c5_scores_invariant 0 [((3:ℤ), StoreOp.updGameState (.obj [("scores",
      .obj [("blue", Json.num (mkRat 2 1))])]))] (by decide)).1⟩

/-- C5 counterexample: one ordinary `update_game_state` call with
payload `\x7b"scores": \x7b"blue": -1\x7d\x7d` drives the store to a
reachable state whose blue score is the negative number -1: the
invariant claimed for every reachable state does not hold, because no
score validation exists anywhere in the store. -/
theorem c5_counterexample :
    (runOps [((1:ℤ), StoreOp.updGameState (.obj [("scores",
        .obj [("blue", Json.num (mkRat (-1) 1))])]))]
      (GameStateManager.init 0)).game_state.blue_score = Json.num (mkRat (-1) 1) ∧
    jsonIsNNInt (Json.num (mkRat (-1) 1)) = false := by
  constructor
  · rfl
  · decide
